import Mathlib

/-!
Verification of the autopilotTS ticket-lifecycle and worktree-resolution core.

The definitions below are a shallow embedding of the TypeScript source:
`Storage` (ticket store), `ConfigManager`, `GitManager` (worktree
operations), `TicketResolverCLI.resolve` (the per-ticket resolution
pipeline) and `Commands` (`start`, `stop`, `autopilotMode`,
`resolveTicketAutopilot`, `stopAutopilot`).  External effects (git
commands, the Copilot CLI and SDK, the filesystem, wall-clock time)
are modelled by explicit environment records and by an operation trace;
timestamps are naturals (epoch milliseconds).
-/

namespace Autopilot

/-- `TicketStatus` from `types/index.ts`. -/
inductive TicketStatus
  | pending
  | branching
  | working
  | stopped
  | closed
  | error
deriving DecidableEq, Repr

/-- The `Ticket` record from `types/index.ts`.  Dates are epoch
milliseconds; optional fields are `Option`. -/
structure Ticket where
  id : String
  name : String
  description : String
  status : TicketStatus
  createdAt : Nat
  startedAt : Option Nat := none
  stoppedAt : Option Nat := none
  closedAt : Option Nat := none
  branch : Option String := none
  error : Option String := none
  summary : Option String := none
deriving DecidableEq, Repr

/-- A partial ticket record (`Partial<Ticket>` in the source): the
fields a `Storage.updateTicket` call supplies.  A `none` field is not
part of the update. -/
structure TicketUpdate where
  status : Option TicketStatus := none
  startedAt : Option Nat := none
  stoppedAt : Option Nat := none
  closedAt : Option Nat := none
  branch : Option String := none
  error : Option String := none
  summary : Option String := none
deriving DecidableEq, Repr

/-- JS object spread `{ ...ticket, ...updates }`: a supplied field
overwrites, an absent one keeps the stored value. -/
def applyUpdate (t : Ticket) (u : TicketUpdate) : Ticket :=
  { t with
    status := u.status.getD t.status
    startedAt := u.startedAt.orElse (fun _ => t.startedAt)
    stoppedAt := u.stoppedAt.orElse (fun _ => t.stoppedAt)
    closedAt := u.closedAt.orElse (fun _ => t.closedAt)
    branch := u.branch.orElse (fun _ => t.branch)
    error := u.error.orElse (fun _ => t.error)
    summary := u.summary.orElse (fun _ => t.summary) }

/-- Model of JS `String.prototype.toLowerCase` (character-wise
lower-casing). -/
def strLower (s : String) : String := String.mk (s.data.map Char.toLower)

namespace Storage

/-- `Storage.getTicket(idOrName)`: first ticket whose `id` or `name`
matches case-insensitively (`toLowerCase` on both sides). -/
def getTicket (store : List Ticket) (q : String) : Option Ticket :=
  store.find? fun t =>
    strLower t.id == strLower q || strLower t.name == strLower q

/-- `Storage.updateTicket(id, updates)`: `findIndex(t => t.id === id)`
(exact, case-sensitive) and in-place merge of the first match; if no
index matches, nothing is written.  The boolean reports whether the
store file was saved. -/
def updateTicket : List Ticket → String → TicketUpdate → List Ticket × Bool
  | [], _, _ => ([], false)
  | t :: ts, i, u =>
    if t.id = i then (applyUpdate t u :: ts, true)
    else
      let r := updateTicket ts i u
      (t :: r.1, r.2)

end Storage

/-- The configuration fields the core reads (`ConfigManager`). -/
structure Config where
  automationPath : Option String := none
  baseRepositoryPath : Option String := none
  baseBranch : Option String := none
deriving DecidableEq, Repr

/-- `ConfigManager.getBaseBranch()`: `config.baseBranch || 'develop'`
(JS `||`: absent or empty string falls back). -/
def Config.getBaseBranch (cfg : Config) : String :=
  match cfg.baseBranch with
  | some s => if s = "" then "develop" else s
  | none => "develop"

/-- One git / filesystem action performed by `GitManager`, recorded as
a trace entry. -/
inductive GitOp
  | checkout (branch : String)
  | pull (branch : String)
  | branchCreate (branch base : String)
  | worktreeAdd (path branch : String)
  | worktreeRemove (path : String)
  | rmDir (path : String)
  | stageAll
  | commit (message : String)
  | branchDelete (branch : String)
  | checkoutBranch (branch base : String)
deriving DecidableEq, Repr

/-- Filesystem state: the set of directories that exist (worktree
paths). -/
structure FsState where
  dirs : List String := []
deriving DecidableEq, Repr

/-- Outcomes of the underlying git commands, fixed by the environment:
which ones fail and with what message. -/
structure GitEnv where
  pullError : Option String := none
  branchAlreadyExists : Bool := false
  worktreeRemoveFails : Bool := false
  commitError : Option String := none
  testBranchError : Option String := none
deriving DecidableEq, Repr

instance {ε α : Type} [DecidableEq ε] [DecidableEq α] :
    DecidableEq (Except ε α) := fun x y =>
  match x, y with
  | Except.ok a, Except.ok b =>
    if h : a = b then isTrue (by rw [h])
    else isFalse (by intro hc; cases hc; exact h rfl)
  | Except.ok _, Except.error _ => isFalse (by intro hc; cases hc)
  | Except.error _, Except.ok _ => isFalse (by intro hc; cases hc)
  | Except.error e, Except.error f =>
    if h : e = f then isTrue (by rw [h])
    else isFalse (by intro hc; cases hc; exact h rfl)

/-- Result of a `GitManager` worktree operation: outcome, filesystem
after it, and the trace of git / fs actions attempted. -/
structure WtResult where
  outcome : Except String String
  fs : FsState
  ops : List GitOp
deriving DecidableEq, Repr

namespace GitManager

/-- `GitManager.createWorktree(ticketId)`: config checks, then in the
base repository checkout the base branch, pull, create
`copilot/{ticketId}` tolerating an already-existing branch, and add the
worktree at `{automationPath}/{ticketId}`. -/
def createWorktree (cfg : Config) (env : GitEnv) (fs : FsState)
    (tid : String) : WtResult :=
  match cfg.automationPath with
  | none =>
    ⟨Except.error "Automation path not configured. Use: autopilot config set automationPath <path>", fs, []⟩
  | some ap =>
    match cfg.baseRepositoryPath with
    | none =>
      ⟨Except.error "Base repository path not configured. Use: autopilot config set baseRepositoryPath <path>", fs, []⟩
    | some _ =>
      match env.pullError with
      | some e =>
        ⟨Except.error e, fs,
         [GitOp.checkout cfg.getBaseBranch, GitOp.pull cfg.getBaseBranch]⟩
      | none =>
        ⟨Except.ok (ap ++ "/" ++ tid), ⟨(ap ++ "/" ++ tid) :: fs.dirs⟩,
          [GitOp.checkout cfg.getBaseBranch, GitOp.pull cfg.getBaseBranch,
           GitOp.branchCreate ("copilot/" ++ tid) cfg.getBaseBranch,
           GitOp.worktreeAdd (ap ++ "/" ++ tid) ("copilot/" ++ tid)]⟩

/-- `GitManager.worktreeExists(ticketId)`: pure filesystem check of the
conventional path `{automationPath}/{ticketId}`; no git call. -/
def worktreeExists (cfg : Config) (fs : FsState) (tid : String) :
    Option String :=
  match cfg.automationPath with
  | none => none
  | some ap =>
    if ap ++ "/" ++ tid ∈ fs.dirs then some (ap ++ "/" ++ tid) else none

/-- `GitManager.removeWorktree(path)`: throws when the base repository
path is unconfigured; otherwise attempts a forced
`git worktree remove` and, if that fails, falls back to forced
recursive deletion of the directory when it exists. -/
def removeWorktree (cfg : Config) (env : GitEnv) (fs : FsState)
    (wpath : String) : WtResult :=
  match cfg.baseRepositoryPath with
  | none => ⟨Except.error "Base repository path not configured", fs, []⟩
  | some _ =>
    if env.worktreeRemoveFails then
      if wpath ∈ fs.dirs then
        ⟨Except.ok "", ⟨fs.dirs.erase wpath⟩,
         [GitOp.worktreeRemove wpath, GitOp.rmDir wpath]⟩
      else
        ⟨Except.ok "", fs, [GitOp.worktreeRemove wpath]⟩
    else
      ⟨Except.ok "", ⟨fs.dirs.erase wpath⟩, [GitOp.worktreeRemove wpath]⟩

/-- The default commit message of `GitManager.commitInWorktree`. -/
def defaultCommitMessage (tid : String) : String :=
  "[feat]: Implement functionality for " ++ tid ++ " task"

/-- `GitManager.commitInWorktree(path, ticketId, customMessage?)`:
checks `git status`; with no changed files returns `false` without
committing, otherwise stages everything and commits with
`customMessage || default` (JS `||`: absent or empty falls back). -/
def commitInWorktree (nfiles : Nat) (tid : String)
    (custom : Option String) : Bool × List GitOp :=
  if nfiles = 0 then (false, [])
  else
    let msg :=
      match custom with
      | some c => if c = "" then defaultCommitMessage tid else c
      | none => defaultCommitMessage tid
    (true, [GitOp.stageAll, GitOp.commit msg])

/-- `GitManager.createTestBranch(ticketId)`: in the base repository,
delete any stale `test/copilot/{ticketId}` (tolerated), create it from
`copilot/{ticketId}` and return to the base branch; a git failure is
rethrown. -/
def createTestBranch (cfg : Config) (env : GitEnv) (tid : String) :
    Except String String × List GitOp :=
  match cfg.baseRepositoryPath with
  | none => (Except.error "Base repository path not configured", [])
  | some _ =>
    let testBranch := "test/copilot/" ++ tid
    let copilotBranch := "copilot/" ++ tid
    match env.testBranchError with
    | some e => (Except.error e, [GitOp.branchDelete testBranch])
    | none =>
      (Except.ok testBranch,
       [GitOp.branchDelete testBranch,
        GitOp.checkoutBranch testBranch copilotBranch,
        GitOp.checkout cfg.getBaseBranch])

end GitManager

/-- The worktree-ensuring step of `Commands.autopilotMode`'s
pre-provisioning loop: reuse the worktree at the conventional path when
it exists, otherwise create it. -/
def ensureWorktree (cfg : Config) (env : GitEnv) (fs : FsState)
    (tid : String) : WtResult :=
  match GitManager.worktreeExists cfg fs tid with
  | some p => ⟨Except.ok p, fs, []⟩
  | none => GitManager.createWorktree cfg env fs tid

/-- Character-level whitespace trim (model of JS `String.trim`). -/
def charTrim (l : List Char) : List Char :=
  ((l.dropWhile Char.isWhitespace).reverse.dropWhile Char.isWhitespace).reverse

/-- A double or single quote character. -/
def isQuoteChar (c : Char) : Bool :=
  c = Char.ofNat 34 || c = Char.ofNat 39

/-- Model of `replace(/^["']|["']$/g, '')`: drop one leading and one
trailing quote. -/
def stripEdgeQuotes (l : List Char) : List Char :=
  let l1 :=
    match l with
    | c :: rest => if isQuoteChar c then rest else l
    | [] => []
  match l1.reverse with
  | c :: rest => if isQuoteChar c then rest.reverse else l1
  | [] => l1

/-- The response clean-up of `CopilotAgent.generateCommitMessage`:
trim, strip edge quotes, keep the first line, truncate to 60
characters. -/
def cleanupCommitMessage (s : String) : String :=
  String.mk
    (((stripEdgeQuotes (charTrim s.data)).takeWhile
        (fun c => ¬ c = Char.ofNat 10)).take 60)

/-- The session-level outcomes of the Copilot SDK and CLI, fixed by the
environment of one pipeline run. -/
structure ResolveEnv where
  copilotAvailable : Bool := true
  sdkAvailable : Bool := true
  copilotSuccess : Bool := true
  copilotError : Option String := none
  statusFiles : Nat := 0
  diff : String := ""
  sdkCommitCall : Except String String := Except.ok ""
  sdkSummaryCall : Except String String := Except.ok ""
  git : GitEnv := {}
deriving DecidableEq, Repr

/-- `CopilotAgent.generateCommitMessage(diff, ticketId)`: the whole SDK
interaction is inside a `try`; an internal failure is swallowed and the
literal fallback `Implement functionality for task` is returned, so the
method itself never raises. -/
def generateCommitMessage (env : ResolveEnv) : String :=
  match env.sdkCommitCall with
  | Except.ok resp => cleanupCommitMessage resp
  | Except.error _ => "Implement functionality for task"

/-- Model of the markdown-fence clean-up in
`CopilotAgent.generateTicketSummary`. -/
def stripFences (s : String) : String :=
  let l := charTrim s.data
  let l :=
    if ("```html".data).isPrefixOf l then (l.drop 7).dropWhile Char.isWhitespace
    else l
  let l :=
    if ("```".data).isPrefixOf l then (l.drop 3).dropWhile Char.isWhitespace
    else l
  let r := l.reverse
  let r :=
    if ("```".data.reverse).isPrefixOf r then r.drop 3
    else r
  String.mk (charTrim r.reverse)

/-- `CopilotAgent.generateTicketSummary(ticketId, diff, commit?)`: also
fully wrapped in a `try`; an internal failure is swallowed and a small
failure-notice HTML report naming the ticket and the error is returned,
so the method itself never raises. -/
def generateTicketSummary (env : ResolveEnv) (tid : String) : String :=
  match env.sdkSummaryCall with
  | Except.ok resp => stripFences resp
  | Except.error e =>
    "<div><h2>Error al generar resumen</h2><p>No se pudo generar el resumen automático para el ticket "
      ++ tid ++ ".</p><p>Error: " ++ e ++ "</p></div>"

/-- `SimplifiedResolverOptions` of `TicketResolverCLI`
(`skipValidation` is declared in the source but never read by
`resolve`). -/
structure ResolveOptions where
  skipValidation : Bool := false
  cleanupOnError : Bool := true
  existingWorktree : Option String := none
deriving DecidableEq, Repr

/-- `SimplifiedResolutionResult` (ticket and duration omitted; the
ticket is the argument and durations are wall-clock). -/
structure ResolutionResult where
  success : Bool
  hasChanges : Bool
  worktreePath : Option String := none
  testBranch : Option String := none
  commitMessage : Option String := none
  summary : Option String := none
  error : Option String := none
deriving DecidableEq, Repr

/-- A full pipeline outcome: the returned result plus the filesystem
and git-operation trace of the run. -/
structure ResolveOutput where
  result : ResolutionResult
  fs : FsState
  ops : List GitOp
deriving DecidableEq, Repr

/-- `TicketResolverCLI.validateConfiguration()`: Copilot CLI
availability, automation path, base repository path; the first missing
precondition throws. -/
def validateConfiguration (cfg : Config) (env : ResolveEnv) :
    Except String Unit :=
  if ¬env.copilotAvailable then
    Except.error "GitHub Copilot CLI not found. Install it with: npm install -g @github/copilot-cli"
  else
    match cfg.automationPath with
    | none =>
      Except.error "Automation path not configured. Set it with: autopilot config set automationPath <path>"
    | some _ =>
      match cfg.baseRepositoryPath with
      | none =>
        Except.error "Base repository path not configured. Set it with: autopilot config set baseRepositoryPath <path>"
      | some _ => Except.ok ()

/-- The `catch` block of `TicketResolverCLI.resolve`: build the failure
result carrying the exception message verbatim and, when
`cleanupOnError` is set and a worktree path had been established,
remove the worktree (that cleanup's own failure is swallowed). -/
def resolveCatch (cfg : Config) (env : ResolveEnv) (opts : ResolveOptions)
    (msg : String) (wp : Option String) (fs : FsState) (ops : List GitOp) :
    ResolveOutput :=
  match wp, opts.cleanupOnError with
  | some p, true =>
    let r := GitManager.removeWorktree cfg env.git fs p
    ⟨{ success := false, hasChanges := false, worktreePath := some p,
       error := some msg }, r.fs, ops ++ r.ops⟩
  | _, _ =>
    ⟨{ success := false, hasChanges := false, worktreePath := wp,
       error := some msg }, fs, ops⟩

/-- JS `x || d` for an optional string: absent or empty falls back. -/
def orDefault (o : Option String) (d : String) : String :=
  match o with
  | some s => if s = "" then d else s
  | none => d

/-- Steps 3-6 of `TicketResolverCLI.resolve`, after a worktree path has
been established: run the Copilot CLI, detect changes, commit with the
generated-or-default message, generate the summary, create the test
branch (only with changes), and assemble the success result.  With no
changes only a warning is printed and the run still succeeds with
`hasChanges = false`. -/
def resolveAfterWorktree (cfg : Config) (env : ResolveEnv) (tk : Ticket)
    (opts : ResolveOptions) (wp : String) (fs : FsState)
    (ops0 : List GitOp) : ResolveOutput :=
  if ¬env.copilotSuccess then
    resolveCatch cfg env opts (orDefault env.copilotError "Copilot CLI failed")
      (some wp) fs ops0
  else if env.statusFiles > 0 then
    let commitMessage : Option String :=
      if env.sdkAvailable && env.diff ≠ "" then
        some ("[feat]: " ++ generateCommitMessage env ++ "(" ++ tk.id ++ ")")
      else none
    match env.git.commitError with
    | some e =>
      resolveCatch cfg env opts e (some wp) fs (ops0 ++ [GitOp.stageAll])
    | none =>
      let cres := GitManager.commitInWorktree env.statusFiles tk.id commitMessage
      let summary : Option String :=
        if env.sdkAvailable && env.diff ≠ "" then
          some (generateTicketSummary env tk.id)
        else none
      let tb := GitManager.createTestBranch cfg env.git tk.id
      match tb.1 with
      | Except.error e =>
        resolveCatch cfg env opts e (some wp) fs (ops0 ++ cres.2 ++ tb.2)
      | Except.ok tbName =>
        ⟨{ success := true, hasChanges := true, worktreePath := some wp,
           testBranch := some tbName, commitMessage := commitMessage,
           summary := summary }, fs, ops0 ++ cres.2 ++ tb.2⟩
  else
    ⟨{ success := true, hasChanges := false, worktreePath := some wp },
     fs, ops0⟩

/-- `TicketResolverCLI.resolve()`: validate configuration, acquire the
worktree (reuse the caller-supplied one or create it), then the
post-worktree steps; every exception is caught at this boundary and
converted into a failure result. -/
def resolve (cfg : Config) (env : ResolveEnv) (tk : Ticket)
    (opts : ResolveOptions) (fs : FsState) : ResolveOutput :=
  match validateConfiguration cfg env with
  | Except.error e => resolveCatch cfg env opts e none fs []
  | Except.ok _ =>
    match opts.existingWorktree with
    | some wp => resolveAfterWorktree cfg env tk opts wp fs []
    | none =>
      let c := GitManager.createWorktree cfg env.git fs tk.id
      match c.outcome with
      | Except.error e => resolveCatch cfg env opts e none c.fs c.ops
      | Except.ok wp => resolveAfterWorktree cfg env tk opts wp c.fs c.ops

/-- The message `commitInWorktree` ends up committing inside `resolve`
when changes are present: the wrapped generated message when the SDK is
reachable and the diff non-empty, the deterministic default
otherwise. -/
def pipelineCommitMessage (env : ResolveEnv) (tid : String) : String :=
  match (if env.sdkAvailable && env.diff ≠ "" then
      some ("[feat]: " ++ generateCommitMessage env ++ "(" ++ tid ++ ")")
    else none) with
  | some c => if c = "" then GitManager.defaultCommitMessage tid else c
  | none => GitManager.defaultCommitMessage tid

/-- A recorded ticket-status transition of one `Storage.updateTicket`
call: the status of the first exact-id match before the write, paired
with the status the update writes.  Empty when nothing matches or the
update carries no status. -/
def statusTransitions (store : List Ticket) (i : String)
    (u : TicketUpdate) : List (TicketStatus × TicketStatus) :=
  match store.find? (fun t => t.id == i), u.status with
  | some t, some s => [(t.status, s)]
  | _, _ => []

/-- Outcome of `Commands.resolveTicketAutopilot`: the value it returns
(`success`, `summary`, `error`) plus the store, filesystem, trace and
the recorded status transitions. -/
structure AutoResolveOut where
  store : List Ticket
  fs : FsState
  ops : List GitOp
  success : Bool
  summary : Option String := none
  error : Option String := none
  transitions : List (TicketStatus × TicketStatus) := []
deriving DecidableEq, Repr

/-- `Commands.resolveTicketAutopilot(ticket, existingWorktree?)`: mark
the ticket `working` with `startedAt = now`, run the resolver with
`cleanupOnError = true` and the pre-created worktree, then write the
final record: `closed` (with the summary when present) on success,
`error` with `result.error || 'Unknown error'` on failure. -/
def resolveTicketAutopilot (cfg : Config) (env : ResolveEnv) (now : Nat)
    (store : List Ticket) (tk : Ticket) (existingWorktree : Option String)
    (fs : FsState) : AutoResolveOut :=
  let u1 : TicketUpdate :=
    { status := some TicketStatus.working, startedAt := some now }
  let tr1 := statusTransitions store tk.id u1
  let store1 := (Storage.updateTicket store tk.id u1).1
  let r := resolve cfg env tk
    { skipValidation := false, cleanupOnError := true,
      existingWorktree := existingWorktree } fs
  if r.result.success && r.result.summary.isSome then
    let u2 : TicketUpdate :=
      { summary := r.result.summary, status := some TicketStatus.closed,
        closedAt := some now }
    ⟨(Storage.updateTicket store1 tk.id u2).1, r.fs, r.ops, true,
     r.result.summary, r.result.error,
     tr1 ++ statusTransitions store1 tk.id u2⟩
  else if r.result.success then
    let u2 : TicketUpdate :=
      { status := some TicketStatus.closed, closedAt := some now }
    ⟨(Storage.updateTicket store1 tk.id u2).1, r.fs, r.ops, true,
     r.result.summary, r.result.error,
     tr1 ++ statusTransitions store1 tk.id u2⟩
  else
    let u2 : TicketUpdate :=
      { status := some TicketStatus.error,
        error := some (orDefault r.result.error "Unknown error") }
    ⟨(Storage.updateTicket store1 tk.id u2).1, r.fs, r.ops, false,
     r.result.summary, r.result.error,
     tr1 ++ statusTransitions store1 tk.id u2⟩

/-- The progress events `Commands.autopilotMode` sends through its
callback. -/
inductive ApEvent
  | noTickets
  | started (total : Nat) (tickets : List (String × String))
  | processing (current total : Nat) (id name : String)
  | ticketCompleted (id : String) (current total : Nat)
  | ticketFailed (id : String) (err : Option String) (current total : Nat)
  | cancelled
  | completed
deriving DecidableEq, Repr

/-- One entry of the run's `completed[]` / `failed[]` aggregates. -/
structure ApOutcomeRec where
  ticketId : String
  success : Bool
  error : Option String := none
  summary : Option String := none
deriving DecidableEq, Repr

/-- The aggregate result `autopilotMode` returns. -/
structure ApRunResult where
  completed : List ApOutcomeRec
  failed : List ApOutcomeRec
  cancelled : Bool
deriving DecidableEq, Repr

/-- State accumulated by the sequential resolution loop of
`autopilotMode`. -/
structure ApLoopOut where
  events : List ApEvent
  completed : List ApOutcomeRec
  failed : List ApOutcomeRec
  store : List Ticket
  fs : FsState
  ops : List GitOp
  transitions : List (TicketStatus × TicketStatus)
deriving DecidableEq, Repr

/-- An `autopilotMode` invocation: outcome (the thrown
`already running` error or the aggregate result), emitted events, final
store, filesystem, git trace and recorded status transitions. -/
structure ApOutput where
  outcome : Except String ApRunResult
  events : List ApEvent
  store : List Ticket
  fs : FsState
  ops : List GitOp
  transitions : List (TicketStatus × TicketStatus)
deriving DecidableEq, Repr

/-- The pre-provisioning phase of `autopilotMode`: for every selected
ticket, reuse an existing worktree or create one; a per-ticket failure
is logged and skipped (that ticket gets no map entry) and the phase
continues.  Returns the ticketId→path map, the filesystem and the git
trace. -/
def provisionWorktrees (cfg : Config) (envOf : String → ResolveEnv) :
    List Ticket → FsState →
    List (String × String) × FsState × List GitOp
  | [], fs => ([], fs, [])
  | t :: ts, fs =>
    match GitManager.worktreeExists cfg fs t.id with
    | some p =>
      let r := provisionWorktrees cfg envOf ts fs
      ((t.id, p) :: r.1, r.2.1, r.2.2)
    | none =>
      let c := GitManager.createWorktree cfg (envOf t.id).git fs t.id
      match c.outcome with
      | Except.ok p =>
        let r := provisionWorktrees cfg envOf ts c.fs
        ((t.id, p) :: r.1, r.2.1, c.ops ++ r.2.2)
      | Except.error _ =>
        let r := provisionWorktrees cfg envOf ts c.fs
        (r.1, r.2.1, c.ops ++ r.2.2)

/-- Whether the cooperative stop flag is visible at the check preceding
loop iteration `i` (0-based).  `stopAt = some k` models
`stopAutopilot()` being called while ticket `k` (1-based) is being
processed, so the flag is set at every check from iteration `k` on. -/
def shouldStopAt (stopAt : Option Nat) (i : Nat) : Bool :=
  match stopAt with
  | some k => decide (k ≤ i)
  | none => false

/-- The sequential resolution loop of `autopilotMode`: before each
ticket the stop flag is checked (emitting `cancelled` and breaking when
set); otherwise a `processing` event is emitted, the ticket is resolved
via `resolveTicketAutopilot` with its pre-provisioned worktree, and a
`ticket_completed` / `ticket_failed` event with running counters
follows. -/
def autopilotLoop (cfg : Config) (envOf : String → ResolveEnv) (now : Nat)
    (stopAt : Option Nat) (total : Nat) (wmap : List (String × String)) :
    List Ticket → Nat → List Ticket → FsState → ApLoopOut
  | [], _, store, fs => ⟨[], [], [], store, fs, [], []⟩
  | t :: ts, i, store, fs =>
    if shouldStopAt stopAt i then
      ⟨[ApEvent.cancelled], [], [], store, fs, [], []⟩
    else
      let r := resolveTicketAutopilot cfg (envOf t.id) now store t
        (List.lookup t.id wmap) fs
      if r.success then
        let rest := autopilotLoop cfg envOf now stopAt total wmap ts (i + 1)
          r.store r.fs
        ⟨ApEvent.processing (i + 1) total t.id t.name ::
           ApEvent.ticketCompleted t.id (i + 1) total :: rest.events,
         ⟨t.id, true, r.error, r.summary⟩ :: rest.completed, rest.failed,
         rest.store, rest.fs, r.ops ++ rest.ops,
         r.transitions ++ rest.transitions⟩
      else
        let rest := autopilotLoop cfg envOf now stopAt total wmap ts (i + 1)
          r.store r.fs
        ⟨ApEvent.processing (i + 1) total t.id t.name ::
           ApEvent.ticketFailed t.id r.error (i + 1) total :: rest.events,
         rest.completed, ⟨t.id, false, r.error, r.summary⟩ :: rest.failed,
         rest.store, rest.fs, r.ops ++ rest.ops,
         r.transitions ++ rest.transitions⟩

/-- `Commands.autopilotMode(callback)`: throws `Autopilot is already
running` when a run is in progress, before selecting tickets, emitting
any event or touching any record.  Otherwise selects tickets with
`status == pending` sorted ascending by `createdAt` (JS `sort` is
stable), returns an empty result on none, and otherwise emits
`started`, pre-provisions every worktree, runs the resolution loop and
returns the aggregate (`cancelled` reflects the cooperative stop
flag). -/
def autopilotMode (cfg : Config) (envOf : String → ResolveEnv) (now : Nat)
    (running : Bool) (stopAt : Option Nat) (store : List Ticket)
    (fs : FsState) : ApOutput :=
  if running then
    ⟨Except.error "Autopilot is already running", [], store, fs, [], []⟩
  else
    let pendingTickets :=
      (store.filter (fun t => t.status == TicketStatus.pending)).mergeSort
        (fun a b => decide (a.createdAt ≤ b.createdAt))
    if pendingTickets.isEmpty then
      ⟨Except.ok ⟨[], [], false⟩, [ApEvent.noTickets], store, fs, [], []⟩
    else
      let prov := provisionWorktrees cfg envOf pendingTickets fs
      let lp := autopilotLoop cfg envOf now stopAt pendingTickets.length
        prov.1 pendingTickets 0 store prov.2.1
      ⟨Except.ok ⟨lp.completed, lp.failed, stopAt.isSome⟩,
       ApEvent.started pendingTickets.length
           (pendingTickets.map (fun t => (t.id, t.name))) ::
         lp.events ++ [ApEvent.completed],
       lp.store, lp.fs, prov.2.2 ++ lp.ops, lp.transitions⟩

/-- External outcomes driving one `Commands.start` invocation. -/
structure StartEnv where
  isGitRepo : Bool := true
  copilotPresent : Bool := true
  analyzeError : Option String := none
  pullOrBranchError : Option String := none
deriving DecidableEq, Repr

/-- `Commands.start(ticketId)`: look the ticket up (case-insensitive),
refuse only a `working` ticket; outside a git repository set `working`
directly, otherwise set `branching`, pull and create the branch, then
set `working` with the branch name; any exception in the `try` sets
`status = error` with the message. -/
def Commands.start (senv : StartEnv) (now : Nat) (store : List Ticket)
    (tid : String) : List Ticket × List (TicketStatus × TicketStatus) :=
  match Storage.getTicket store tid with
  | none => (store, [])
  | some tk =>
    if tk.status = TicketStatus.working then (store, [])
    else if ¬senv.isGitRepo then
      let u : TicketUpdate :=
        { status := some TicketStatus.working, startedAt := some now }
      let tr1 := statusTransitions store tk.id u
      let store1 := (Storage.updateTicket store tk.id u).1
      match senv.copilotPresent, senv.analyzeError with
      | true, some e =>
        let u2 : TicketUpdate :=
          { status := some TicketStatus.error, error := some e }
        ((Storage.updateTicket store1 tk.id u2).1,
         tr1 ++ statusTransitions store1 tk.id u2)
      | _, _ => (store1, tr1)
    else
      let ub : TicketUpdate := { status := some TicketStatus.branching }
      let trb := statusTransitions store tk.id ub
      let storeb := (Storage.updateTicket store tk.id ub).1
      match senv.pullOrBranchError with
      | some e =>
        let u2 : TicketUpdate :=
          { status := some TicketStatus.error, error := some e }
        ((Storage.updateTicket storeb tk.id u2).1,
         trb ++ statusTransitions storeb tk.id u2)
      | none =>
        let uw : TicketUpdate :=
          { status := some TicketStatus.working, startedAt := some now,
            branch := some ("copilot/" ++ tk.id) }
        let trw := statusTransitions storeb tk.id uw
        let storew := (Storage.updateTicket storeb tk.id uw).1
        match senv.copilotPresent, senv.analyzeError with
        | true, some e =>
          let u2 : TicketUpdate :=
            { status := some TicketStatus.error, error := some e }
          ((Storage.updateTicket storew tk.id u2).1,
           trb ++ trw ++ statusTransitions storew tk.id u2)
        | _, _ => (storew, trb ++ trw)

/-- External outcomes driving one `Commands.stop` invocation. -/
structure StopEnv where
  isGitRepo : Bool := true
  hasChanges : Bool := false
  shouldCommit : Bool := true
  commitMessage : String := ""
  gitError : Option String := none
deriving DecidableEq, Repr

/-- `Commands.stop(ticketId)`: look the ticket up, refuse any status
other than `working`; optionally commit uncommitted changes and return
to the base branch, then set `stopped` with `stoppedAt`; a git
exception is only logged — no status is written. -/
def Commands.stop (senv : StopEnv) (now : Nat) (store : List Ticket)
    (tid : String) : List Ticket × List (TicketStatus × TicketStatus) :=
  match Storage.getTicket store tid with
  | none => (store, [])
  | some tk =>
    if tk.status ≠ TicketStatus.working then (store, [])
    else
      match senv.isGitRepo, senv.gitError with
      | true, some _ => (store, [])
      | _, _ =>
        let u : TicketUpdate :=
          { status := some TicketStatus.stopped, stoppedAt := some now }
        ((Storage.updateTicket store tk.id u).1, statusTransitions store tk.id u)

/-- The transition set of the claim: pending→{branching,working},
branching→{working,error}, working→{stopped,closed,error},
stopped→{working,closed}. -/
def claimEdges : List (TicketStatus × TicketStatus) :=
  [(TicketStatus.pending, TicketStatus.branching),
   (TicketStatus.pending, TicketStatus.working),
   (TicketStatus.branching, TicketStatus.working),
   (TicketStatus.branching, TicketStatus.error),
   (TicketStatus.working, TicketStatus.stopped),
   (TicketStatus.working, TicketStatus.closed),
   (TicketStatus.working, TicketStatus.error),
   (TicketStatus.stopped, TicketStatus.working),
   (TicketStatus.stopped, TicketStatus.closed)]

/-- The transition set the code can actually produce: the claimed set
plus the restart edges of `Commands.start`, whose only guard is
`status === working`, so stopped, closed, error (and a stale branching)
tickets can be started again. -/
def amendedEdges : List (TicketStatus × TicketStatus) :=
  claimEdges ++
  [(TicketStatus.branching, TicketStatus.branching),
   (TicketStatus.stopped, TicketStatus.branching),
   (TicketStatus.closed, TicketStatus.branching),
   (TicketStatus.closed, TicketStatus.working),
   (TicketStatus.error, TicketStatus.branching),
   (TicketStatus.error, TicketStatus.working)]

/-- The ticket ids of the `processing` events of a run, in emission
order: the observable processing order. -/
def processingIds (evts : List ApEvent) : List String :=
  evts.filterMap fun e =>
    match e with
    | ApEvent.processing _ _ i _ => some i
    | _ => none

end Autopilot

namespace Autopilot

theorem Storage.updateTicket_no_exact_match
    (store : List Ticket) (i : String) (u : TicketUpdate)
    (h : ∀ t ∈ store, t.id ≠ i) :
    Storage.updateTicket store i u = (store, false) := by
  induction store with
  | nil => rfl
  | cons t ts ih =>
    have ht : t.id ≠ i := h t (List.mem_cons_self t ts)
    have hts : ∀ x ∈ ts, x.id ≠ i := fun x hx => h x (List.mem_cons_of_mem t hx)
    simp [Storage.updateTicket, ht, ih hts]

theorem Storage.getTicket_ci_mem
    (store : List Ticket) (q : String) (t : Ticket)
    (ht : t ∈ store) (hid : strLower t.id = strLower q) :
    (Storage.getTicket store q).isSome := by
  exact List.find?_isSome.mpr ⟨t, ht, by rw [hid]; simp⟩

/-- C10: `Storage.updateTicket` matches the ticket id exactly and
case-sensitively, unlike `Storage.getTicket` whose lookup is
case-insensitive over id and name; for every id with no exact
case-sensitive match, `updateTicket` returns without raising and leaves
every ticket record and the store file unchanged (no save), even when a
case-insensitive `getTicket` lookup with the same string does find a
ticket. -/
theorem C10_updateTicket_case_sensitive_frame
    (store : List Ticket) (q : String) (u : TicketUpdate)
    (h : ∀ t ∈ store, t.id ≠ q) :
    Storage.updateTicket store q u = (store, false) ∧
    (∀ t ∈ store, strLower t.id = strLower q →
      (Storage.getTicket store q).isSome) := by
  refine ⟨Storage.updateTicket_no_exact_match store q u h, ?_⟩
  intro t ht hid
  exact Storage.getTicket_ci_mem store q t ht hid

/-- Witness for C10: the store holds a ticket with id `ABC`; updating
with id `abc` is a silent no-op with no save, while `getTicket "abc"`
does find the ticket. -/
theorem C10_witness :
    (∀ t ∈ [({ id := "ABC", name := "ABC", description := "d",
               status := TicketStatus.pending, createdAt := 5 } : Ticket)],
       t.id ≠ "abc") ∧
    Storage.updateTicket
      [{ id := "ABC", name := "ABC", description := "d",
         status := TicketStatus.pending, createdAt := 5 }] "abc"
      { status := some TicketStatus.working } =
      ([{ id := "ABC", name := "ABC", description := "d",
          status := TicketStatus.pending, createdAt := 5 }], false) ∧
    (Storage.getTicket
      [{ id := "ABC", name := "ABC", description := "d",
         status := TicketStatus.pending, createdAt := 5 }] "abc").isSome := by
  refine ⟨by decide, ?_, ?_⟩
  · exact (C10_updateTicket_case_sensitive_frame _ "abc"
      { status := some TicketStatus.working } (by decide)).1
  · exact (C10_updateTicket_case_sensitive_frame
      [{ id := "ABC", name := "ABC", description := "d",
         status := TicketStatus.pending, createdAt := 5 }] "abc"
      { status := some TicketStatus.working } (by decide)).2
      { id := "ABC", name := "ABC", description := "d",
        status := TicketStatus.pending, createdAt := 5 }
      (List.mem_singleton.mpr rfl) (by decide)

/-- C3: ensuring a worktree is idempotent.  Whenever a first ensure for
a ticket id succeeds (whether it found the worktree at the conventional
path or created it), a second ensure in the resulting filesystem state
returns the very same path, leaves the state unchanged, and performs no
branch-creation attempt and no git operation at all (empty trace). -/
theorem C3_ensureWorktree_idempotent
    (cfg : Config) (env env2 : GitEnv) (fs fs1 : FsState)
    (tid p : String) (ops1 : List GitOp)
    (h : ensureWorktree cfg env fs tid = ⟨Except.ok p, fs1, ops1⟩) :
    ensureWorktree cfg env2 fs1 tid = ⟨Except.ok p, fs1, []⟩ := by
  unfold ensureWorktree at h
  split at h
  · rename_i q hex
    simp only [WtResult.mk.injEq, Except.ok.injEq] at h
    obtain ⟨hp, hfs, -⟩ := h
    subst hp
    subst hfs
    unfold ensureWorktree
    rw [hex]
  · rename_i hex
    unfold GitManager.createWorktree at h
    split at h
    · simp only [WtResult.mk.injEq] at h
      exact absurd h.1 (by simp)
    · rename_i ap hap
      split at h
      · simp only [WtResult.mk.injEq] at h
        exact absurd h.1 (by simp)
      · split at h
        · simp only [WtResult.mk.injEq] at h
          exact absurd h.1 (by simp)
        · simp only [WtResult.mk.injEq, Except.ok.injEq] at h
          obtain ⟨hp, hfs, -⟩ := h
          subst hp
          subst hfs
          unfold ensureWorktree GitManager.worktreeExists
          rw [hap]
          simp

/-- Witness for C3: with automation path `/auto` and base repository
`/repo` configured and an empty filesystem, the first ensure for ticket
`T-1` creates `/auto/T-1`; the theorem then yields that a second ensure
returns the same path with an empty trace. -/
theorem C3_witness :
    ensureWorktree
      { automationPath := some "/auto", baseRepositoryPath := some "/repo" }
      {} ⟨["/auto/T-1"]⟩ "T-1" =
      ⟨Except.ok "/auto/T-1", ⟨["/auto/T-1"]⟩, []⟩ :=
  C3_ensureWorktree_idempotent
    { automationPath := some "/auto", baseRepositoryPath := some "/repo" }
    {} {} {} ⟨["/auto/T-1"]⟩ "T-1" "/auto/T-1"
    [GitOp.checkout "develop", GitOp.pull "develop",
     GitOp.branchCreate "copilot/T-1" "develop",
     GitOp.worktreeAdd "/auto/T-1" "copilot/T-1"]
    (by decide)

/-- C9 counterexample: `removeWorktree` does raise for some
configuration state — with no base repository path configured it throws
`Base repository path not configured` before attempting any removal,
refuting `never raises for every input path and every configuration
state`. -/
theorem C9_counterexample :
    (GitManager.removeWorktree {} {} {} "/auto/T-1").outcome =
      Except.error "Base repository path not configured" ∧
    (GitManager.removeWorktree {} {} {} "/auto/T-1").ops = [] := by
  decide

/-- C9 amended: whenever the base repository path is configured,
`removeWorktree` never raises: it attempts the forced
`git worktree remove` and, if that fails, falls back to forced
recursive deletion of the directory when it exists; all cleanup
failures are best-effort. -/
theorem C9_removeWorktree_best_effort
    (cfg : Config) (env : GitEnv) (fs : FsState) (p r : String)
    (h : cfg.baseRepositoryPath = some r) :
    (GitManager.removeWorktree cfg env fs p).outcome = Except.ok "" ∧
    GitOp.worktreeRemove p ∈ (GitManager.removeWorktree cfg env fs p).ops ∧
    (env.worktreeRemoveFails = true → p ∈ fs.dirs →
      GitOp.rmDir p ∈ (GitManager.removeWorktree cfg env fs p).ops) := by
  unfold GitManager.removeWorktree
  rw [h]
  by_cases hf : env.worktreeRemoveFails <;>
    by_cases hm : p ∈ fs.dirs <;>
    simp [hf, hm]

/-- Witness for C9 amended: concrete configured state where the git
removal fails and the directory exists; both the removal attempt and
the fallback deletion appear in the trace. -/
theorem C9_witness :
    (GitManager.removeWorktree
        { baseRepositoryPath := some "/repo" }
        { worktreeRemoveFails := true } ⟨["/auto/T-1"]⟩ "/auto/T-1").outcome =
      Except.ok "" ∧
    GitOp.worktreeRemove "/auto/T-1" ∈
      (GitManager.removeWorktree
        { baseRepositoryPath := some "/repo" }
        { worktreeRemoveFails := true } ⟨["/auto/T-1"]⟩ "/auto/T-1").ops ∧
    GitOp.rmDir "/auto/T-1" ∈
      (GitManager.removeWorktree
        { baseRepositoryPath := some "/repo" }
        { worktreeRemoveFails := true } ⟨["/auto/T-1"]⟩ "/auto/T-1").ops := by
  obtain ⟨h1, h2, h3⟩ := C9_removeWorktree_best_effort
    { baseRepositoryPath := some "/repo" }
    { worktreeRemoveFails := true } ⟨["/auto/T-1"]⟩ "/auto/T-1" "/repo" rfl
  exact ⟨h1, h2, h3 rfl (by decide)⟩

theorem applyUpdate_id (t : Ticket) (u : TicketUpdate) :
    (applyUpdate t u).id = t.id := rfl

theorem updateTicket_find?_self (store : List Ticket) (i : String)
    (u : TicketUpdate) :
    (Storage.updateTicket store i u).1.find? (fun t => t.id == i) =
      (store.find? (fun t => t.id == i)).map (fun t => applyUpdate t u) := by
  induction store with
  | nil => rfl
  | cons t ts ih =>
    by_cases h : t.id = i
    · simp [Storage.updateTicket, h, List.find?_cons_of_pos, applyUpdate_id]
    · have hb : (t.id == i) = false := by simp [h]
      simp [Storage.updateTicket, h, List.find?_cons_of_neg, hb, ih]

/-- C1 counterexample: a run in which the agent reports success but the
worktree has no changed files.  The resolution result has
`success = true` (not a `success=false`-class outcome), no git
operation at all is performed (in particular no commit and no test
branch), and under autopilot the ticket ends in `status = closed`, not
`error` — refuting the claimed `success=false` outcome and final
`error` status. -/
theorem C1_counterexample :
    (resolveTicketAutopilot
        { automationPath := some "/auto", baseRepositoryPath := some "/repo" }
        { statusFiles := 0 } 100
        [{ id := "T-1", name := "T-1", description := "d",
           status := TicketStatus.pending, createdAt := 0 }]
        { id := "T-1", name := "T-1", description := "d",
          status := TicketStatus.pending, createdAt := 0 }
        (some "/auto/T-1") ⟨["/auto/T-1"]⟩).success = true ∧
    (resolveTicketAutopilot
        { automationPath := some "/auto", baseRepositoryPath := some "/repo" }
        { statusFiles := 0 } 100
        [{ id := "T-1", name := "T-1", description := "d",
           status := TicketStatus.pending, createdAt := 0 }]
        { id := "T-1", name := "T-1", description := "d",
          status := TicketStatus.pending, createdAt := 0 }
        (some "/auto/T-1") ⟨["/auto/T-1"]⟩).ops = [] ∧
    (resolveTicketAutopilot
        { automationPath := some "/auto", baseRepositoryPath := some "/repo" }
        { statusFiles := 0 } 100
        [{ id := "T-1", name := "T-1", description := "d",
           status := TicketStatus.pending, createdAt := 0 }]
        { id := "T-1", name := "T-1", description := "d",
          status := TicketStatus.pending, createdAt := 0 }
        (some "/auto/T-1") ⟨["/auto/T-1"]⟩).store =
      [{ id := "T-1", name := "T-1", description := "d",
         status := TicketStatus.closed, createdAt := 0,
         startedAt := some 100, closedAt := some 100 }] := by
  decide

/-- C1 amended: when the agent succeeds but the worktree shows no
changed files, the pipeline still returns a `success = true` result
with `hasChanges = false`, performs no git operation (no commit, no
test branch), and under autopilot the ticket ends in `status = closed`
(the "no changes" warning is only printed). -/
theorem C1_no_changes_soft_success
    (cfg : Config) (env : ResolveEnv) (now : Nat) (store : List Ticket)
    (tk : Ticket) (wp : String) (fs : FsState)
    (hv : validateConfiguration cfg env = Except.ok ())
    (hcs : env.copilotSuccess = true)
    (hnf : env.statusFiles = 0) :
    (resolveTicketAutopilot cfg env now store tk (some wp) fs).success = true ∧
    (resolveTicketAutopilot cfg env now store tk (some wp) fs).ops = [] ∧
    ((store.find? (fun t => t.id == tk.id)).isSome →
      ∃ t1, (resolveTicketAutopilot cfg env now store tk (some wp) fs).store.find?
          (fun t => t.id == tk.id) = some t1 ∧
        t1.status = TicketStatus.closed) := by
  have hr : resolve cfg env tk
      { skipValidation := false, cleanupOnError := true,
        existingWorktree := some wp } fs =
      ⟨{ success := true, hasChanges := false, worktreePath := some wp },
       fs, []⟩ := by
    simp [resolve, hv, resolveAfterWorktree, hcs, hnf]
  refine ⟨?_, ?_, ?_⟩
  · simp [resolveTicketAutopilot, hr]
  · simp [resolveTicketAutopilot, hr]
  · intro hsome
    obtain ⟨t0, ht0⟩ := Option.isSome_iff_exists.mp hsome
    refine ⟨applyUpdate (applyUpdate t0
      { status := some TicketStatus.working, startedAt := some now })
      { status := some TicketStatus.closed, closedAt := some now }, ?_, rfl⟩
    simp [resolveTicketAutopilot, hr, updateTicket_find?_self, ht0]

/-- Witness for C1 amended at a concrete configured run. -/
theorem C1_witness :
    (resolveTicketAutopilot
        { automationPath := some "/a", baseRepositoryPath := some "/r" }
        { statusFiles := 0 } 7
        [{ id := "X", name := "X", description := "",
           status := TicketStatus.pending, createdAt := 1 }]
        { id := "X", name := "X", description := "",
          status := TicketStatus.pending, createdAt := 1 }
        (some "/a/X") ⟨["/a/X"]⟩).success = true ∧
    (∃ t1, (resolveTicketAutopilot
        { automationPath := some "/a", baseRepositoryPath := some "/r" }
        { statusFiles := 0 } 7
        [{ id := "X", name := "X", description := "",
           status := TicketStatus.pending, createdAt := 1 }]
        { id := "X", name := "X", description := "",
          status := TicketStatus.pending, createdAt := 1 }
        (some "/a/X") ⟨["/a/X"]⟩).store.find?
          (fun t => t.id == "X") = some t1 ∧
      t1.status = TicketStatus.closed) := by
  obtain ⟨h1, -, h3⟩ := C1_no_changes_soft_success
    { automationPath := some "/a", baseRepositoryPath := some "/r" }
    { statusFiles := 0 } 7
    [{ id := "X", name := "X", description := "",
       status := TicketStatus.pending, createdAt := 1 }]
    { id := "X", name := "X", description := "",
      status := TicketStatus.pending, createdAt := 1 }
    "/a/X" ⟨["/a/X"]⟩ rfl rfl rfl
  exact ⟨h1, h3 (by decide)⟩

/-- C6 counterexample: changes are present, the SDK is available with a
non-empty diff, and the commit-message enrichment fails (the SDK
session errors).  The commit still occurs, but its message is the
wrapped internal fallback `[feat]: Implement functionality for
task(T-1)` — not the claimed deterministic default `[feat]: Implement
functionality for T-1 task`, which appears nowhere in the trace. -/
theorem C6_counterexample :
    GitOp.commit "[feat]: Implement functionality for task(T-1)" ∈
      (resolve
        { automationPath := some "/a", baseRepositoryPath := some "/r" }
        { statusFiles := 1, diff := "x",
          sdkCommitCall := Except.error "sdk down" }
        { id := "T-1", name := "T-1", description := "d",
          status := TicketStatus.pending, createdAt := 0 }
        { existingWorktree := some "/a/T-1" } ⟨["/a/T-1"]⟩).ops ∧
    GitOp.commit "[feat]: Implement functionality for T-1 task" ∉
      (resolve
        { automationPath := some "/a", baseRepositoryPath := some "/r" }
        { statusFiles := 1, diff := "x",
          sdkCommitCall := Except.error "sdk down" }
        { id := "T-1", name := "T-1", description := "d",
          status := TicketStatus.pending, createdAt := 0 }
        { existingWorktree := some "/a/T-1" } ⟨["/a/T-1"]⟩).ops := by
  decide

theorem validateConfiguration_ok_baseRepositoryPath
    (cfg : Config) (env : ResolveEnv)
    (h : validateConfiguration cfg env = Except.ok ()) :
    ∃ r, cfg.baseRepositoryPath = some r := by
  unfold validateConfiguration at h
  split at h
  · simp at h
  · split at h
    · simp at h
    · split at h
      · simp at h
      · rename_i r hbr
        exact ⟨r, hbr⟩

theorem resolve_changes_commit_mem
    (cfg : Config) (env : ResolveEnv) (tk : Ticket) (wp : String)
    (fs : FsState)
    (hv : validateConfiguration cfg env = Except.ok ())
    (hcs : env.copilotSuccess = true)
    (hch : env.statusFiles ≠ 0)
    (hcm : env.git.commitError = none) :
    GitOp.commit (pipelineCommitMessage env tk.id) ∈
      (resolve cfg env tk { existingWorktree := some wp } fs).ops := by
  have hpos : env.statusFiles > 0 := Nat.pos_of_ne_zero hch
  simp only [resolve, hv, resolveAfterWorktree, hcs, Bool.not_true,
    not_true_eq_false, if_false]
  rw [if_pos hpos]
  rw [hcm]
  simp only [GitManager.commitInWorktree, hch, if_neg, not_false_iff]
  have hpm : (match (if env.sdkAvailable && env.diff ≠ "" then
      some ("[feat]: " ++ generateCommitMessage env ++ "(" ++ tk.id ++ ")")
      else none) with
    | some c => if c = "" then GitManager.defaultCommitMessage tk.id else c
    | none => GitManager.defaultCommitMessage tk.id) =
      pipelineCommitMessage env tk.id := rfl
  rw [hpm]
  rcases htb : (GitManager.createTestBranch cfg env.git tk.id).1 with e | tbn <;>
    simp [htb, resolveCatch]

/-- C6 amended: with changes present and the enrichment call failing,
the commit still occurs; when the SDK is reachable and the diff is
non-empty its message is the wrapped internal fallback
`[feat]: Implement functionality for task({ticketId})`, and the
deterministic default `[feat]: Implement functionality for {ticketId}
task` is used exactly when the enrichment step is skipped (SDK
unavailable or empty diff). -/
theorem C6_commit_on_enrichment_failure
    (cfg : Config) (env : ResolveEnv) (tk : Ticket) (wp : String)
    (fs : FsState) (e : String)
    (hv : validateConfiguration cfg env = Except.ok ())
    (hcs : env.copilotSuccess = true)
    (hch : env.statusFiles ≠ 0)
    (hcm : env.git.commitError = none)
    (hfail : env.sdkCommitCall = Except.error e) :
    (env.sdkAvailable = true → env.diff ≠ "" →
      GitOp.commit ("[feat]: Implement functionality for task(" ++ tk.id ++ ")") ∈
        (resolve cfg env tk { existingWorktree := some wp } fs).ops) ∧
    (env.sdkAvailable = false ∨ env.diff = "" →
      GitOp.commit (GitManager.defaultCommitMessage tk.id) ∈
        (resolve cfg env tk { existingWorktree := some wp } fs).ops) := by
  have hmem := resolve_changes_commit_mem cfg env tk wp fs hv hcs hch hcm
  constructor
  · intro hsdk hd
    have hg : generateCommitMessage env = "Implement functionality for task" := by
      rw [generateCommitMessage, hfail]
    have hlit : ("[feat]: " ++ "Implement functionality for task") ++ "(" =
        "[feat]: Implement functionality for task(" := by decide
    have hne : ("[feat]: " ++ generateCommitMessage env ++ "(" ++ tk.id ++ ")") ≠ "" := by
      intro hc
      have hlen := congrArg String.length hc
      simp [String.length_append] at hlen
      exact absurd hlen.1.1.1.1 (by decide)
    have hpm : pipelineCommitMessage env tk.id =
        "[feat]: Implement functionality for task(" ++ tk.id ++ ")" := by
      unfold pipelineCommitMessage
      rw [if_pos (by simp [hsdk, hd])]
      simp only [if_neg hne]
      rw [hg, hlit]
    rw [← hpm]
    exact hmem
  · intro hskip
    have hpm : pipelineCommitMessage env tk.id =
        GitManager.defaultCommitMessage tk.id := by
      unfold pipelineCommitMessage
      rcases hskip with hs | hd
      · rw [if_neg (by simp [hs])]
      · rw [if_neg (by simp [hd])]
    rw [← hpm]
    exact hmem

/-- Witness for C6 amended: concrete run with one changed file, SDK
available, diff `x`, and a failing enrichment session. -/
theorem C6_witness :
    GitOp.commit "[feat]: Implement functionality for task(T-9)" ∈
      (resolve
        { automationPath := some "/a", baseRepositoryPath := some "/r" }
        { statusFiles := 1, diff := "x",
          sdkCommitCall := Except.error "down" }
        { id := "T-9", name := "T-9", description := "d",
          status := TicketStatus.pending, createdAt := 0 }
        { existingWorktree := some "/a/T-9" } ⟨["/a/T-9"]⟩).ops := by
  have h := (C6_commit_on_enrichment_failure
    { automationPath := some "/a", baseRepositoryPath := some "/r" }
    { statusFiles := 1, diff := "x", sdkCommitCall := Except.error "down" }
    { id := "T-9", name := "T-9", description := "d",
      status := TicketStatus.pending, createdAt := 0 }
    "/a/T-9" ⟨["/a/T-9"]⟩ "down" rfl rfl (by decide) rfl rfl).1 rfl (by decide)
  have hs : ("[feat]: Implement functionality for task(" ++ "T-9" ++ ")") =
      "[feat]: Implement functionality for task(T-9)" := by decide
  rw [hs] at h
  exact h

theorem createWorktree_no_remove
    (cfg : Config) (genv : GitEnv) (fs : FsState) (tid q : String) :
    GitOp.worktreeRemove q ∉ (GitManager.createWorktree cfg genv fs tid).ops := by
  unfold GitManager.createWorktree
  split
  · simp
  · split
    · simp
    · split
      · simp
      · simp

theorem removeWorktree_attempt_mem
    (cfg : Config) (genv : GitEnv) (fs : FsState) (p r : String)
    (h : cfg.baseRepositoryPath = some r) :
    GitOp.worktreeRemove p ∈ (GitManager.removeWorktree cfg genv fs p).ops := by
  unfold GitManager.removeWorktree
  rw [h]
  by_cases hf : genv.worktreeRemoveFails <;>
    by_cases hm : p ∈ fs.dirs <;> simp [hf, hm]

/-- C7: any exception of steps 1-3 (validation, worktree acquisition,
agent invocation) is caught at the pipeline boundary — `resolve` is a
total function returning a structured result, never re-raising — the
result has `success = false` with the exception's message verbatim in
`error`, and: a validation failure touches nothing (no ops, filesystem
unchanged); an acquisition failure performs no removal (no worktree
path was established); an agent failure with `cleanupOnError` enabled
attempts the forced worktree removal before returning. -/
theorem C7_pipeline_boundary_catches
    (cfg : Config) (env : ResolveEnv) (tk : Ticket) (opts : ResolveOptions)
    (fs : FsState) :
    (∀ e, validateConfiguration cfg env = Except.error e →
      (resolve cfg env tk opts fs).result.success = false ∧
      (resolve cfg env tk opts fs).result.error = some e ∧
      (resolve cfg env tk opts fs).ops = [] ∧
      (resolve cfg env tk opts fs).fs = fs) ∧
    (∀ e, validateConfiguration cfg env = Except.ok () →
      opts.existingWorktree = none →
      (GitManager.createWorktree cfg env.git fs tk.id).outcome = Except.error e →
      (resolve cfg env tk opts fs).result.success = false ∧
      (resolve cfg env tk opts fs).result.error = some e ∧
      (∀ q, GitOp.worktreeRemove q ∉ (resolve cfg env tk opts fs).ops)) ∧
    (∀ wp, validateConfiguration cfg env = Except.ok () →
      opts.existingWorktree = some wp →
      env.copilotSuccess = false →
      (resolve cfg env tk opts fs).result.success = false ∧
      (resolve cfg env tk opts fs).result.error =
        some (orDefault env.copilotError "Copilot CLI failed") ∧
      (opts.cleanupOnError = true →
        GitOp.worktreeRemove wp ∈ (resolve cfg env tk opts fs).ops)) := by
  refine ⟨?_, ?_, ?_⟩
  · intro e he
    simp [resolve, he, resolveCatch]
  · intro e hv hew hc
    have hres : resolve cfg env tk opts fs =
        resolveCatch cfg env opts e none
          (GitManager.createWorktree cfg env.git fs tk.id).fs
          (GitManager.createWorktree cfg env.git fs tk.id).ops := by
      simp [resolve, hv, hew, hc]
    rw [hres]
    refine ⟨?_, ?_, ?_⟩
    · simp [resolveCatch]
    · simp [resolveCatch]
    · intro q
      simp only [resolveCatch]
      exact createWorktree_no_remove cfg env.git fs tk.id q
  · intro wp hv hew hcs
    obtain ⟨r, hbr⟩ := validateConfiguration_ok_baseRepositoryPath cfg env hv
    have hres : resolve cfg env tk opts fs =
        resolveCatch cfg env opts
          (orDefault env.copilotError "Copilot CLI failed") (some wp) fs [] := by
      simp [resolve, hv, hew, resolveAfterWorktree, hcs]
    rw [hres]
    cases hcl : opts.cleanupOnError with
    | true =>
      refine ⟨by simp [resolveCatch, hcl], by simp [resolveCatch, hcl], ?_⟩
      intro _
      simp only [resolveCatch, hcl, List.nil_append]
      exact removeWorktree_attempt_mem cfg env.git fs wp r hbr
    | false =>
      exact ⟨by simp [resolveCatch, hcl], by simp [resolveCatch, hcl],
        by intro hx; cases hx⟩

/-- Witness for C7: concrete agent-invocation failure with cleanup
enabled; the result carries the agent's error text verbatim and the
trace shows the forced worktree removal. -/
theorem C7_witness :
    (resolve
      { automationPath := some "/a", baseRepositoryPath := some "/r" }
      { copilotSuccess := false, copilotError := some "agent crashed" }
      { id := "Z", name := "Z", description := "d",
        status := TicketStatus.pending, createdAt := 0 }
      { existingWorktree := some "/a/Z" } ⟨["/a/Z"]⟩).result.success = false ∧
    (resolve
      { automationPath := some "/a", baseRepositoryPath := some "/r" }
      { copilotSuccess := false, copilotError := some "agent crashed" }
      { id := "Z", name := "Z", description := "d",
        status := TicketStatus.pending, createdAt := 0 }
      { existingWorktree := some "/a/Z" } ⟨["/a/Z"]⟩).result.error =
      some "agent crashed" ∧
    GitOp.worktreeRemove "/a/Z" ∈
      (resolve
        { automationPath := some "/a", baseRepositoryPath := some "/r" }
        { copilotSuccess := false, copilotError := some "agent crashed" }
        { id := "Z", name := "Z", description := "d",
          status := TicketStatus.pending, createdAt := 0 }
        { existingWorktree := some "/a/Z" } ⟨["/a/Z"]⟩).ops := by
  obtain ⟨h1, h2, h3⟩ := (C7_pipeline_boundary_catches
    { automationPath := some "/a", baseRepositoryPath := some "/r" }
    { copilotSuccess := false, copilotError := some "agent crashed" }
    { id := "Z", name := "Z", description := "d",
      status := TicketStatus.pending, createdAt := 0 }
    { existingWorktree := some "/a/Z" } ⟨["/a/Z"]⟩).2.2 "/a/Z" rfl rfl rfl
  refine ⟨h1, ?_, h3 rfl⟩
  rw [h2]
  decide

/-- C8: if a run is already in progress, a second `autopilotMode`
invocation throws `Autopilot is already running` immediately: no event
is emitted, no ticket is selected or modified, no worktree is touched
and no git operation happens. -/
theorem C8_second_run_rejected
    (cfg : Config) (envOf : String → ResolveEnv) (now : Nat)
    (stopAt : Option Nat) (store : List Ticket) (fs : FsState) :
    autopilotMode cfg envOf now true stopAt store fs =
      ⟨Except.error "Autopilot is already running", [], store, fs, [], []⟩ :=
  rfl

theorem processingIds_nil : processingIds [] = [] := rfl

theorem processingIds_append (a b : List ApEvent) :
    processingIds (a ++ b) = processingIds a ++ processingIds b :=
  List.filterMap_append ..

theorem autopilotLoop_none_processing
    (cfg : Config) (envOf : String → ResolveEnv) (now : Nat) (total : Nat)
    (wmap : List (String × String)) :
    ∀ (ts : List Ticket) (i : Nat) (store : List Ticket) (fs : FsState),
      processingIds
        (autopilotLoop cfg envOf now none total wmap ts i store fs).events =
        ts.map Ticket.id := by
  intro ts
  induction ts with
  | nil => intro i store fs; rfl
  | cons t ts ih =>
    intro i store fs
    unfold autopilotLoop
    have hs : shouldStopAt none i = false := rfl
    rw [hs]
    cases hr : (resolveTicketAutopilot cfg (envOf t.id) now store t
        (List.lookup t.id wmap) fs).success <;>
      simp only [hr, Bool.false_eq_true, if_false, if_true, processingIds,
        List.filterMap_cons, List.map_cons] <;>
      exact congrArg (List.cons t.id) (ih (i + 1) _ _)

/-- C4: an autopilot run processes exactly the tickets that are
`pending` at run start, in ascending `createdAt` order with ties broken
by the original store order, whatever order the store holds them in:
the processing-event ids equal the stable sort of the pending filter;
that selection is a permutation of the pending tickets, is sorted by
`createdAt`, and preserves the store's relative order inside every
`createdAt` tie class. -/
theorem C4_selection_and_order
    (cfg : Config) (envOf : String → ResolveEnv) (now : Nat)
    (store : List Ticket) (fs : FsState) :
    processingIds (autopilotMode cfg envOf now false none store fs).events =
      ((store.filter (fun t => t.status == TicketStatus.pending)).mergeSort
        (fun a b => decide (a.createdAt ≤ b.createdAt))).map Ticket.id ∧
    ((store.filter (fun t => t.status == TicketStatus.pending)).mergeSort
        (fun a b => decide (a.createdAt ≤ b.createdAt))).Perm
      (store.filter (fun t => t.status == TicketStatus.pending)) ∧
    List.Pairwise (fun a b => a.createdAt ≤ b.createdAt)
      ((store.filter (fun t => t.status == TicketStatus.pending)).mergeSort
        (fun a b => decide (a.createdAt ≤ b.createdAt))) ∧
    (∀ c : Nat,
      ((store.filter (fun t => t.status == TicketStatus.pending)).mergeSort
          (fun a b => decide (a.createdAt ≤ b.createdAt))).filter
        (fun t => t.createdAt == c) =
      (store.filter (fun t => t.status == TicketStatus.pending)).filter
        (fun t => t.createdAt == c)) := by
  have htrans : ∀ (a b c : Ticket),
      decide (a.createdAt ≤ b.createdAt) →
      decide (b.createdAt ≤ c.createdAt) →
      decide (a.createdAt ≤ c.createdAt) := by
    intro a b c hab hbc
    simp only [decide_eq_true_eq] at *
    omega
  have htotal : ∀ (a b : Ticket),
      (decide (a.createdAt ≤ b.createdAt) || decide (b.createdAt ≤ a.createdAt)) = true := by
    intro a b
    rcases Nat.le_total a.createdAt b.createdAt with h | h <;> simp [h]
  refine ⟨?_, List.mergeSort_perm _ _, ?_, ?_⟩
  · unfold autopilotMode
    simp only [if_neg Bool.false_ne_true]
    cases hS : ((store.filter (fun t => t.status == TicketStatus.pending)).mergeSort
        (fun a b => decide (a.createdAt ≤ b.createdAt))).isEmpty
    · simp only [hS, if_false, Bool.false_eq_true]
      simp [processingIds_append, processingIds,
        autopilotLoop_none_processing]
      exact autopilotLoop_none_processing cfg envOf now _ _ _ 0 store _
    · have hnil := List.isEmpty_iff.mp hS
      simp [hS, hnil, processingIds]
  · exact (List.sorted_mergeSort htrans htotal _).imp
      (fun h => of_decide_eq_true h)
  · intro c
    have hpairwise :
        ((store.filter (fun t => t.status == TicketStatus.pending)).filter
          (fun t => t.createdAt == c)).Pairwise
          (fun a b => decide (a.createdAt ≤ b.createdAt)) := by
      apply List.pairwise_of_forall_mem_list
      intro a ha b hb
      have ha' := (List.mem_filter.mp ha).2
      have hb' := (List.mem_filter.mp hb).2
      simp only [beq_iff_eq] at ha' hb'
      simp [ha', hb']
    have hsub : List.Sublist
        ((store.filter (fun t => t.status == TicketStatus.pending)).filter
          (fun t => t.createdAt == c))
        ((store.filter (fun t => t.status == TicketStatus.pending)).mergeSort
          (fun a b => decide (a.createdAt ≤ b.createdAt))) :=
      List.sublist_mergeSort htrans htotal hpairwise
        (List.filter_sublist _)
    have hsub2 := hsub.filter (fun t => t.createdAt == c)
    rw [List.filter_eq_self.mpr (fun a ha => (List.mem_filter.mp ha).2)] at hsub2
    refine (hsub2.eq_of_length ?_).symm
    rw [← List.countP_eq_length_filter, ← List.countP_eq_length_filter]
    exact ((List.mergeSort_perm
      (store.filter (fun t => t.status == TicketStatus.pending))
      (fun a b => decide (a.createdAt ≤ b.createdAt))).countP_eq _).symm

theorem updateTicket_mem_of_ne (store : List Ticket) (i : String)
    (u : TicketUpdate) (t : Ticket) (ht : t ∈ store) (hne : t.id ≠ i) :
    t ∈ (Storage.updateTicket store i u).1 := by
  induction store with
  | nil => cases ht
  | cons s ss ih =>
    rcases List.mem_cons.mp ht with h | h
    · subst h
      simp [Storage.updateTicket, hne]
    · by_cases hs : s.id = i
      · simp [Storage.updateTicket, hs, h]
      · simp only [Storage.updateTicket, hs, if_false, if_neg,
          not_false_iff]
        exact List.mem_cons_of_mem s (ih h)

theorem resolveTicketAutopilot_store_mem
    (cfg : Config) (env : ResolveEnv) (now : Nat) (store : List Ticket)
    (tk : Ticket) (ew : Option String) (fs : FsState) (t : Ticket)
    (ht : t ∈ store) (hne : t.id ≠ tk.id) :
    t ∈ (resolveTicketAutopilot cfg env now store tk ew fs).store := by
  simp only [resolveTicketAutopilot]
  split <;>
  first
  | exact updateTicket_mem_of_ne _ _ _ _
      (updateTicket_mem_of_ne _ _ _ _ ht hne) hne
  | split <;>
      exact updateTicket_mem_of_ne _ _ _ _
        (updateTicket_mem_of_ne _ _ _ _ ht hne) hne

theorem autopilotLoop_halted (cfg : Config) (envOf : String → ResolveEnv)
    (now : Nat) (k total : Nat) (wmap : List (String × String))
    (ts : List Ticket) (j : Nat) (store : List Ticket) (fs : FsState)
    (hj : k ≤ j) :
    (autopilotLoop cfg envOf now (some k) total wmap ts j store fs).store
        = store ∧
    (autopilotLoop cfg envOf now (some k) total wmap ts j store fs).completed
        = [] ∧
    (autopilotLoop cfg envOf now (some k) total wmap ts j store fs).failed
        = [] ∧
    processingIds
      (autopilotLoop cfg envOf now (some k) total wmap ts j store fs).events
        = [] ∧
    (ts ≠ [] → ApEvent.cancelled ∈
      (autopilotLoop cfg envOf now (some k) total wmap ts j store fs).events) := by
  cases ts with
  | nil => exact ⟨rfl, rfl, rfl, rfl, fun h => absurd rfl h⟩
  | cons t ts =>
    have hstop : shouldStopAt (some k) j = true := by
      simp [shouldStopAt, hj]
    simp [autopilotLoop, hstop, processingIds]

theorem processingIds_processing_cons (c tot : Nat) (i n : String)
    (evts : List ApEvent) :
    processingIds (ApEvent.processing c tot i n :: evts) =
      i :: processingIds evts := rfl

theorem processingIds_completed_cons (i : String) (c tot : Nat)
    (evts : List ApEvent) :
    processingIds (ApEvent.ticketCompleted i c tot :: evts) =
      processingIds evts := rfl

theorem processingIds_failed_cons (i : String) (e : Option String)
    (c tot : Nat) (evts : List ApEvent) :
    processingIds (ApEvent.ticketFailed i e c tot :: evts) =
      processingIds evts := rfl

theorem autopilotLoop_stop (cfg : Config) (envOf : String → ResolveEnv)
    (now : Nat) (k total : Nat) (wmap : List (String × String)) :
    ∀ (ts : List Ticket) (i : Nat) (store : List Ticket) (fs : FsState),
      i < k → k ≤ i + ts.length →
      processingIds
          (autopilotLoop cfg envOf now (some k) total wmap ts i store fs).events
        = (ts.take (k - i)).map Ticket.id ∧
      (autopilotLoop cfg envOf now (some k) total wmap ts i store fs).completed.length
        + (autopilotLoop cfg envOf now (some k) total wmap ts i store fs).failed.length
        = k - i ∧
      (k < i + ts.length → ApEvent.cancelled ∈
        (autopilotLoop cfg envOf now (some k) total wmap ts i store fs).events) ∧
      (∀ t ∈ store, (∀ u ∈ ts.take (k - i), t.id ≠ u.id) →
        t ∈ (autopilotLoop cfg envOf now (some k) total wmap ts i store fs).store) := by
  intro ts
  induction ts with
  | nil =>
    intro i store fs hik hk
    simp only [List.length_nil, Nat.add_zero] at hk
    omega
  | cons t ts ih =>
    intro i store fs hik hk
    have hstop : shouldStopAt (some k) i = false := by
      simp only [shouldStopAt, decide_eq_false_iff_not]
      omega
    have hki : k - i = (k - (i + 1)) + 1 := by omega
    rw [hki, List.take_succ_cons]
    have hred :
        autopilotLoop cfg envOf now (some k) total wmap (t :: ts) i store fs =
        (if (resolveTicketAutopilot cfg (envOf t.id) now store t
              (List.lookup t.id wmap) fs).success then
          ⟨ApEvent.processing (i + 1) total t.id t.name ::
             ApEvent.ticketCompleted t.id (i + 1) total ::
             (autopilotLoop cfg envOf now (some k) total wmap ts (i + 1)
               (resolveTicketAutopilot cfg (envOf t.id) now store t
                 (List.lookup t.id wmap) fs).store
               (resolveTicketAutopilot cfg (envOf t.id) now store t
                 (List.lookup t.id wmap) fs).fs).events,
           ⟨t.id, true,
            (resolveTicketAutopilot cfg (envOf t.id) now store t
              (List.lookup t.id wmap) fs).error,
            (resolveTicketAutopilot cfg (envOf t.id) now store t
              (List.lookup t.id wmap) fs).summary⟩ ::
             (autopilotLoop cfg envOf now (some k) total wmap ts (i + 1)
               (resolveTicketAutopilot cfg (envOf t.id) now store t
                 (List.lookup t.id wmap) fs).store
               (resolveTicketAutopilot cfg (envOf t.id) now store t
                 (List.lookup t.id wmap) fs).fs).completed,
           (autopilotLoop cfg envOf now (some k) total wmap ts (i + 1)
             (resolveTicketAutopilot cfg (envOf t.id) now store t
               (List.lookup t.id wmap) fs).store
             (resolveTicketAutopilot cfg (envOf t.id) now store t
               (List.lookup t.id wmap) fs).fs).failed,
           (autopilotLoop cfg envOf now (some k) total wmap ts (i + 1)
             (resolveTicketAutopilot cfg (envOf t.id) now store t
               (List.lookup t.id wmap) fs).store
             (resolveTicketAutopilot cfg (envOf t.id) now store t
               (List.lookup t.id wmap) fs).fs).store,
           (autopilotLoop cfg envOf now (some k) total wmap ts (i + 1)
             (resolveTicketAutopilot cfg (envOf t.id) now store t
               (List.lookup t.id wmap) fs).store
             (resolveTicketAutopilot cfg (envOf t.id) now store t
               (List.lookup t.id wmap) fs).fs).fs,
           (resolveTicketAutopilot cfg (envOf t.id) now store t
             (List.lookup t.id wmap) fs).ops ++
             (autopilotLoop cfg envOf now (some k) total wmap ts (i + 1)
               (resolveTicketAutopilot cfg (envOf t.id) now store t
                 (List.lookup t.id wmap) fs).store
               (resolveTicketAutopilot cfg (envOf t.id) now store t
                 (List.lookup t.id wmap) fs).fs).ops,
           (resolveTicketAutopilot cfg (envOf t.id) now store t
             (List.lookup t.id wmap) fs).transitions ++
             (autopilotLoop cfg envOf now (some k) total wmap ts (i + 1)
               (resolveTicketAutopilot cfg (envOf t.id) now store t
                 (List.lookup t.id wmap) fs).store
               (resolveTicketAutopilot cfg (envOf t.id) now store t
                 (List.lookup t.id wmap) fs).fs).transitions⟩
        else
          ⟨ApEvent.processing (i + 1) total t.id t.name ::
             ApEvent.ticketFailed t.id
               (resolveTicketAutopilot cfg (envOf t.id) now store t
                 (List.lookup t.id wmap) fs).error (i + 1) total ::
             (autopilotLoop cfg envOf now (some k) total wmap ts (i + 1)
               (resolveTicketAutopilot cfg (envOf t.id) now store t
                 (List.lookup t.id wmap) fs).store
               (resolveTicketAutopilot cfg (envOf t.id) now store t
                 (List.lookup t.id wmap) fs).fs).events,
           (autopilotLoop cfg envOf now (some k) total wmap ts (i + 1)
             (resolveTicketAutopilot cfg (envOf t.id) now store t
               (List.lookup t.id wmap) fs).store
             (resolveTicketAutopilot cfg (envOf t.id) now store t
               (List.lookup t.id wmap) fs).fs).completed,
           ⟨t.id, false,
            (resolveTicketAutopilot cfg (envOf t.id) now store t
              (List.lookup t.id wmap) fs).error,
            (resolveTicketAutopilot cfg (envOf t.id) now store t
              (List.lookup t.id wmap) fs).summary⟩ ::
             (autopilotLoop cfg envOf now (some k) total wmap ts (i + 1)
               (resolveTicketAutopilot cfg (envOf t.id) now store t
                 (List.lookup t.id wmap) fs).store
               (resolveTicketAutopilot cfg (envOf t.id) now store t
                 (List.lookup t.id wmap) fs).fs).failed,
           (autopilotLoop cfg envOf now (some k) total wmap ts (i + 1)
             (resolveTicketAutopilot cfg (envOf t.id) now store t
               (List.lookup t.id wmap) fs).store
             (resolveTicketAutopilot cfg (envOf t.id) now store t
               (List.lookup t.id wmap) fs).fs).store,
           (autopilotLoop cfg envOf now (some k) total wmap ts (i + 1)
             (resolveTicketAutopilot cfg (envOf t.id) now store t
               (List.lookup t.id wmap) fs).store
             (resolveTicketAutopilot cfg (envOf t.id) now store t
               (List.lookup t.id wmap) fs).fs).fs,
           (resolveTicketAutopilot cfg (envOf t.id) now store t
             (List.lookup t.id wmap) fs).ops ++
             (autopilotLoop cfg envOf now (some k) total wmap ts (i + 1)
               (resolveTicketAutopilot cfg (envOf t.id) now store t
                 (List.lookup t.id wmap) fs).store
               (resolveTicketAutopilot cfg (envOf t.id) now store t
                 (List.lookup t.id wmap) fs).fs).ops,
           (resolveTicketAutopilot cfg (envOf t.id) now store t
             (List.lookup t.id wmap) fs).transitions ++
             (autopilotLoop cfg envOf now (some k) total wmap ts (i + 1)
               (resolveTicketAutopilot cfg (envOf t.id) now store t
                 (List.lookup t.id wmap) fs).store
               (resolveTicketAutopilot cfg (envOf t.id) now store t
                 (List.lookup t.id wmap) fs).fs).transitions⟩) := by
      rw [autopilotLoop, hstop]
      simp only [Bool.false_eq_true, if_false]
    rw [hred]
    cases hsucc : (resolveTicketAutopilot cfg (envOf t.id) now store t
        (List.lookup t.id wmap) fs).success <;>
      simp only [hsucc, Bool.false_eq_true, if_false, if_true] <;>
      rcases Nat.lt_or_ge (i + 1) k with hik2 | hik2
    · obtain ⟨e1, e2, e3, e4⟩ := ih (i + 1)
        (resolveTicketAutopilot cfg (envOf t.id) now store t
          (List.lookup t.id wmap) fs).store
        (resolveTicketAutopilot cfg (envOf t.id) now store t
          (List.lookup t.id wmap) fs).fs hik2 (by simp at hk ⊢; omega)
      refine ⟨?_, ?_, ?_, ?_⟩
      · rw [processingIds_processing_cons, processingIds_failed_cons, e1]
        simp
      · simp only [List.length_cons]
        omega
      · intro hlt
        exact List.mem_cons_of_mem _ (List.mem_cons_of_mem _
          (e3 (by simp at hlt ⊢; omega)))
      · intro t' ht' hdiff
        refine e4 t' ?_ ?_
        · exact resolveTicketAutopilot_store_mem _ _ _ _ _ _ _ t' ht'
            (hdiff t (by simp))
        · intro u hu
          exact hdiff u (List.mem_cons_of_mem t hu)
    · have hkeq : k = i + 1 := by omega
      obtain ⟨hst, hcmp, hfl, hpids, hcanc⟩ := autopilotLoop_halted cfg envOf
        now k total wmap ts (i + 1)
        (resolveTicketAutopilot cfg (envOf t.id) now store t
          (List.lookup t.id wmap) fs).store
        (resolveTicketAutopilot cfg (envOf t.id) now store t
          (List.lookup t.id wmap) fs).fs hik2
      have hz : k - (i + 1) = 0 := by omega
      refine ⟨?_, ?_, ?_, ?_⟩
      · rw [processingIds_processing_cons, processingIds_failed_cons, hpids,
          hz]
        simp
      · simp only [List.length_cons, hcmp, hfl, List.length_nil]
        omega
      · intro hlt
        have hne : ts ≠ [] := by
          intro hempty
          rw [hempty] at hlt
          simp at hlt
          omega
        exact List.mem_cons_of_mem _ (List.mem_cons_of_mem _ (hcanc hne))
      · intro t' ht' hdiff
        rw [hst]
        exact resolveTicketAutopilot_store_mem _ _ _ _ _ _ _ t' ht'
          (hdiff t (by simp [hz]))
    · obtain ⟨e1, e2, e3, e4⟩ := ih (i + 1)
        (resolveTicketAutopilot cfg (envOf t.id) now store t
          (List.lookup t.id wmap) fs).store
        (resolveTicketAutopilot cfg (envOf t.id) now store t
          (List.lookup t.id wmap) fs).fs hik2 (by simp at hk ⊢; omega)
      refine ⟨?_, ?_, ?_, ?_⟩
      · rw [processingIds_processing_cons, processingIds_completed_cons, e1]
        simp
      · simp only [List.length_cons]
        omega
      · intro hlt
        exact List.mem_cons_of_mem _ (List.mem_cons_of_mem _
          (e3 (by simp at hlt ⊢; omega)))
      · intro t' ht' hdiff
        refine e4 t' ?_ ?_
        · exact resolveTicketAutopilot_store_mem _ _ _ _ _ _ _ t' ht'
            (hdiff t (by simp))
        · intro u hu
          exact hdiff u (List.mem_cons_of_mem t hu)
    · have hkeq : k = i + 1 := by omega
      obtain ⟨hst, hcmp, hfl, hpids, hcanc⟩ := autopilotLoop_halted cfg envOf
        now k total wmap ts (i + 1)
        (resolveTicketAutopilot cfg (envOf t.id) now store t
          (List.lookup t.id wmap) fs).store
        (resolveTicketAutopilot cfg (envOf t.id) now store t
          (List.lookup t.id wmap) fs).fs hik2
      have hz : k - (i + 1) = 0 := by omega
      refine ⟨?_, ?_, ?_, ?_⟩
      · rw [processingIds_processing_cons, processingIds_completed_cons,
          hpids, hz]
        simp
      · simp only [List.length_cons, hcmp, hfl, List.length_nil]
        omega
      · intro hlt
        have hne : ts ≠ [] := by
          intro hempty
          rw [hempty] at hlt
          simp at hlt
          omega
        exact List.mem_cons_of_mem _ (List.mem_cons_of_mem _ (hcanc hne))
      · intro t' ht' hdiff
        rw [hst]
        exact resolveTicketAutopilot_store_mem _ _ _ _ _ _ _ t' ht'
          (hdiff t (by simp [hz]))

theorem processingIds_started_cons (tot : Nat) (l : List (String × String))
    (evts : List ApEvent) :
    processingIds (ApEvent.started tot l :: evts) = processingIds evts := rfl

theorem processingIds_completed_event : processingIds [ApEvent.completed] = [] := rfl

/-- C5 counterexample: the stop is requested while the last ticket
(here ticket 1 of 1) is being processed.  Ticket 1 is still resolved
and the result has `cancelled = true`, but no `cancelled` event is ever
emitted (the loop ends before the next boundary check), refuting the
claimed unconditional `cancelled` event emission. -/
theorem C5_counterexample :
    (autopilotMode
        { automationPath := some "/a", baseRepositoryPath := some "/r" }
        (fun _ => {}) 9 false (some 1)
        [{ id := "T-1", name := "T-1", description := "d",
           status := TicketStatus.pending, createdAt := 0 }]
        ⟨["/a/T-1"]⟩).outcome =
      Except.ok ⟨[⟨"T-1", true, none, none⟩], [], true⟩ ∧
    ApEvent.cancelled ∉
      (autopilotMode
        { automationPath := some "/a", baseRepositoryPath := some "/r" }
        (fun _ => {}) 9 false (some 1)
        [{ id := "T-1", name := "T-1", description := "d",
           status := TicketStatus.pending, createdAt := 0 }]
        ⟨["/a/T-1"]⟩).events := by
  have hsel : (([({ id := "T-1", name := "T-1", description := "d",
                    status := TicketStatus.pending,
                    createdAt := 0 } : Ticket)].filter
        (fun t => t.status == TicketStatus.pending)).mergeSort
        (fun a b => decide (a.createdAt ≤ b.createdAt))) =
      [{ id := "T-1", name := "T-1", description := "d",
         status := TicketStatus.pending, createdAt := 0 }] := by
    rw [show ([({ id := "T-1", name := "T-1", description := "d",
                  status := TicketStatus.pending,
                  createdAt := 0 } : Ticket)].filter
        (fun t => t.status == TicketStatus.pending)) =
        [{ id := "T-1", name := "T-1", description := "d",
           status := TicketStatus.pending, createdAt := 0 }] from rfl,
      List.mergeSort_singleton]
  constructor <;>
    · simp only [autopilotMode, hsel]
      decide

/-- C5 amended: cancellation is cooperative and checked once per ticket
boundary.  If the stop arrives while ticket `k` of `n` is processed and
`k < n`, exactly tickets `1..k` are resolved (each contributing one
entry to `completed` or `failed`), a `cancelled` event is emitted, the
returned result has `cancelled = true`, and every remaining selected
ticket keeps its exact original record — still `pending`, no field
modified.  (When `k = n`, all tickets resolve, `cancelled = true`, but
no `cancelled` event is emitted.) -/
theorem C5_cooperative_cancellation
    (cfg : Config) (envOf : String → ResolveEnv) (now : Nat)
    (store : List Ticket) (fs : FsState) (k : Nat)
    (hnodup : (store.map Ticket.id).Nodup)
    (hk1 : 1 ≤ k)
    (hkn : k <
      ((store.filter (fun t => t.status == TicketStatus.pending)).mergeSort
        (fun a b => decide (a.createdAt ≤ b.createdAt))).length) :
    processingIds
        (autopilotMode cfg envOf now false (some k) store fs).events =
      (((store.filter (fun t => t.status == TicketStatus.pending)).mergeSort
        (fun a b => decide (a.createdAt ≤ b.createdAt))).take k).map Ticket.id ∧
    (∃ res, (autopilotMode cfg envOf now false (some k) store fs).outcome =
        Except.ok res ∧ res.cancelled = true ∧
        res.completed.length + res.failed.length = k) ∧
    ApEvent.cancelled ∈
      (autopilotMode cfg envOf now false (some k) store fs).events ∧
    (∀ t ∈ ((store.filter (fun t => t.status == TicketStatus.pending)).mergeSort
        (fun a b => decide (a.createdAt ≤ b.createdAt))).drop k,
      t ∈ (autopilotMode cfg envOf now false (some k) store fs).store ∧
        t.status = TicketStatus.pending) := by
  have hSE : ((store.filter (fun t => t.status == TicketStatus.pending)).mergeSort
      (fun a b => decide (a.createdAt ≤ b.createdAt))).isEmpty = false := by
    rw [Bool.eq_false_iff]
    intro hemp
    rw [List.isEmpty_iff_length_eq_zero] at hemp
    omega
  obtain ⟨e1, e2, e3, e4⟩ := autopilotLoop_stop cfg envOf now k
    ((store.filter (fun t => t.status == TicketStatus.pending)).mergeSort
      (fun a b => decide (a.createdAt ≤ b.createdAt))).length
    (provisionWorktrees cfg envOf
      ((store.filter (fun t => t.status == TicketStatus.pending)).mergeSort
        (fun a b => decide (a.createdAt ≤ b.createdAt))) fs).1
    ((store.filter (fun t => t.status == TicketStatus.pending)).mergeSort
      (fun a b => decide (a.createdAt ≤ b.createdAt)))
    0 store
    (provisionWorktrees cfg envOf
      ((store.filter (fun t => t.status == TicketStatus.pending)).mergeSort
        (fun a b => decide (a.createdAt ≤ b.createdAt))) fs).2.1
    (by omega) (by omega)
  rw [Nat.sub_zero] at e1 e2 e4
  have hout : autopilotMode cfg envOf now false (some k) store fs =
      ⟨Except.ok ⟨(autopilotLoop cfg envOf now (some k)
          ((store.filter (fun t => t.status == TicketStatus.pending)).mergeSort
            (fun a b => decide (a.createdAt ≤ b.createdAt))).length
          (provisionWorktrees cfg envOf
            ((store.filter (fun t => t.status == TicketStatus.pending)).mergeSort
              (fun a b => decide (a.createdAt ≤ b.createdAt))) fs).1
          ((store.filter (fun t => t.status == TicketStatus.pending)).mergeSort
            (fun a b => decide (a.createdAt ≤ b.createdAt)))
          0 store
          (provisionWorktrees cfg envOf
            ((store.filter (fun t => t.status == TicketStatus.pending)).mergeSort
              (fun a b => decide (a.createdAt ≤ b.createdAt))) fs).2.1).completed,
        (autopilotLoop cfg envOf now (some k)
          ((store.filter (fun t => t.status == TicketStatus.pending)).mergeSort
            (fun a b => decide (a.createdAt ≤ b.createdAt))).length
          (provisionWorktrees cfg envOf
            ((store.filter (fun t => t.status == TicketStatus.pending)).mergeSort
              (fun a b => decide (a.createdAt ≤ b.createdAt))) fs).1
          ((store.filter (fun t => t.status == TicketStatus.pending)).mergeSort
            (fun a b => decide (a.createdAt ≤ b.createdAt)))
          0 store
          (provisionWorktrees cfg envOf
            ((store.filter (fun t => t.status == TicketStatus.pending)).mergeSort
              (fun a b => decide (a.createdAt ≤ b.createdAt))) fs).2.1).failed,
        true⟩,
       ApEvent.started
           ((store.filter (fun t => t.status == TicketStatus.pending)).mergeSort
             (fun a b => decide (a.createdAt ≤ b.createdAt))).length
           (((store.filter (fun t => t.status == TicketStatus.pending)).mergeSort
             (fun a b => decide (a.createdAt ≤ b.createdAt))).map
               (fun t => (t.id, t.name))) ::
         (autopilotLoop cfg envOf now (some k)
          ((store.filter (fun t => t.status == TicketStatus.pending)).mergeSort
            (fun a b => decide (a.createdAt ≤ b.createdAt))).length
          (provisionWorktrees cfg envOf
            ((store.filter (fun t => t.status == TicketStatus.pending)).mergeSort
              (fun a b => decide (a.createdAt ≤ b.createdAt))) fs).1
          ((store.filter (fun t => t.status == TicketStatus.pending)).mergeSort
            (fun a b => decide (a.createdAt ≤ b.createdAt)))
          0 store
          (provisionWorktrees cfg envOf
            ((store.filter (fun t => t.status == TicketStatus.pending)).mergeSort
              (fun a b => decide (a.createdAt ≤ b.createdAt))) fs).2.1).events
           ++ [ApEvent.completed],
       (autopilotLoop cfg envOf now (some k)
          ((store.filter (fun t => t.status == TicketStatus.pending)).mergeSort
            (fun a b => decide (a.createdAt ≤ b.createdAt))).length
          (provisionWorktrees cfg envOf
            ((store.filter (fun t => t.status == TicketStatus.pending)).mergeSort
              (fun a b => decide (a.createdAt ≤ b.createdAt))) fs).1
          ((store.filter (fun t => t.status == TicketStatus.pending)).mergeSort
            (fun a b => decide (a.createdAt ≤ b.createdAt)))
          0 store
          (provisionWorktrees cfg envOf
            ((store.filter (fun t => t.status == TicketStatus.pending)).mergeSort
              (fun a b => decide (a.createdAt ≤ b.createdAt))) fs).2.1).store,
       (autopilotLoop cfg envOf now (some k)
          ((store.filter (fun t => t.status == TicketStatus.pending)).mergeSort
            (fun a b => decide (a.createdAt ≤ b.createdAt))).length
          (provisionWorktrees cfg envOf
            ((store.filter (fun t => t.status == TicketStatus.pending)).mergeSort
              (fun a b => decide (a.createdAt ≤ b.createdAt))) fs).1
          ((store.filter (fun t => t.status == TicketStatus.pending)).mergeSort
            (fun a b => decide (a.createdAt ≤ b.createdAt)))
          0 store
          (provisionWorktrees cfg envOf
            ((store.filter (fun t => t.status == TicketStatus.pending)).mergeSort
              (fun a b => decide (a.createdAt ≤ b.createdAt))) fs).2.1).fs,
       (provisionWorktrees cfg envOf
          ((store.filter (fun t => t.status == TicketStatus.pending)).mergeSort
            (fun a b => decide (a.createdAt ≤ b.createdAt))) fs).2.2 ++
         (autopilotLoop cfg envOf now (some k)
          ((store.filter (fun t => t.status == TicketStatus.pending)).mergeSort
            (fun a b => decide (a.createdAt ≤ b.createdAt))).length
          (provisionWorktrees cfg envOf
            ((store.filter (fun t => t.status == TicketStatus.pending)).mergeSort
              (fun a b => decide (a.createdAt ≤ b.createdAt))) fs).1
          ((store.filter (fun t => t.status == TicketStatus.pending)).mergeSort
            (fun a b => decide (a.createdAt ≤ b.createdAt)))
          0 store
          (provisionWorktrees cfg envOf
            ((store.filter (fun t => t.status == TicketStatus.pending)).mergeSort
              (fun a b => decide (a.createdAt ≤ b.createdAt))) fs).2.1).ops,
       (autopilotLoop cfg envOf now (some k)
          ((store.filter (fun t => t.status == TicketStatus.pending)).mergeSort
            (fun a b => decide (a.createdAt ≤ b.createdAt))).length
          (provisionWorktrees cfg envOf
            ((store.filter (fun t => t.status == TicketStatus.pending)).mergeSort
              (fun a b => decide (a.createdAt ≤ b.createdAt))) fs).1
          ((store.filter (fun t => t.status == TicketStatus.pending)).mergeSort
            (fun a b => decide (a.createdAt ≤ b.createdAt)))
          0 store
          (provisionWorktrees cfg envOf
            ((store.filter (fun t => t.status == TicketStatus.pending)).mergeSort
              (fun a b => decide (a.createdAt ≤ b.createdAt))) fs).2.1).transitions⟩ := by
    simp only [autopilotMode, Bool.false_eq_true, if_false, hSE,
      Option.isSome_some]
  refine ⟨?_, ?_, ?_, ?_⟩
  · rw [hout]
    simp only [processingIds_started_cons, processingIds_append,
      processingIds_completed_event, List.append_nil]
    exact e1
  · rw [hout]
    exact ⟨_, rfl, rfl, e2⟩
  · rw [hout]
    exact List.mem_cons_of_mem _ (List.mem_append_left _ (e3 (by omega)))
  · intro t htd
    have htS : t ∈ ((store.filter (fun t => t.status == TicketStatus.pending)).mergeSort
        (fun a b => decide (a.createdAt ≤ b.createdAt))) := by
      rw [← List.take_append_drop k
        ((store.filter (fun t => t.status == TicketStatus.pending)).mergeSort
          (fun a b => decide (a.createdAt ≤ b.createdAt)))]
      exact List.mem_append_right _ htd
    have htP := List.mem_mergeSort.mp htS
    obtain ⟨htmem, htpend⟩ := List.mem_filter.mp htP
    have hSnodup : (((store.filter (fun t => t.status == TicketStatus.pending)).mergeSort
        (fun a b => decide (a.createdAt ≤ b.createdAt))).map Ticket.id).Nodup := by
      have hperm := (List.mergeSort_perm
        (store.filter (fun t => t.status == TicketStatus.pending))
        (fun a b => decide (a.createdAt ≤ b.createdAt))).map Ticket.id
      rw [hperm.nodup_iff]
      exact hnodup.sublist ((List.filter_sublist _).map Ticket.id)
    have hdiff : ∀ u ∈ ((store.filter (fun t => t.status == TicketStatus.pending)).mergeSort
        (fun a b => decide (a.createdAt ≤ b.createdAt))).take k, t.id ≠ u.id := by
      intro u hu heq
      have hsplit : (((store.filter (fun t => t.status == TicketStatus.pending)).mergeSort
          (fun a b => decide (a.createdAt ≤ b.createdAt))).map Ticket.id) =
          (((store.filter (fun t => t.status == TicketStatus.pending)).mergeSort
            (fun a b => decide (a.createdAt ≤ b.createdAt))).take k).map Ticket.id ++
          (((store.filter (fun t => t.status == TicketStatus.pending)).mergeSort
            (fun a b => decide (a.createdAt ≤ b.createdAt))).drop k).map Ticket.id := by
        rw [← List.map_append, List.take_append_drop]
      rw [hsplit] at hSnodup
      have hdisj := (List.nodup_append.mp hSnodup).2.2
      have h1 : t.id ∈ (((store.filter (fun t => t.status == TicketStatus.pending)).mergeSort
          (fun a b => decide (a.createdAt ≤ b.createdAt))).take k).map Ticket.id := by
        rw [heq]
        exact List.mem_map_of_mem Ticket.id hu
      have h2 : t.id ∈ (((store.filter (fun t => t.status == TicketStatus.pending)).mergeSort
          (fun a b => decide (a.createdAt ≤ b.createdAt))).drop k).map Ticket.id :=
        List.mem_map_of_mem Ticket.id htd
      exact hdisj h1 h2
    refine ⟨?_, by simpa using htpend⟩
    rw [hout]
    exact e4 t htmem hdiff

/-- Witness for C5 amended: two pending tickets, stop requested during
ticket 1 of 2. -/
theorem C5_witness :
    processingIds
        (autopilotMode
          { automationPath := some "/a", baseRepositoryPath := some "/r" }
          (fun _ => {}) 3 false (some 1)
          [{ id := "A", name := "A", description := "",
             status := TicketStatus.pending, createdAt := 1 },
           { id := "B", name := "B", description := "",
             status := TicketStatus.pending, createdAt := 2 }]
          ⟨["/a/A", "/a/B"]⟩).events =
      ((([({ id := "A", name := "A", description := "",
             status := TicketStatus.pending, createdAt := 1 } : Ticket),
          { id := "B", name := "B", description := "",
            status := TicketStatus.pending, createdAt := 2 }].filter
          (fun t => t.status == TicketStatus.pending)).mergeSort
          (fun a b => decide (a.createdAt ≤ b.createdAt))).take 1).map
        Ticket.id ∧
    (∃ res, (autopilotMode
          { automationPath := some "/a", baseRepositoryPath := some "/r" }
          (fun _ => {}) 3 false (some 1)
          [{ id := "A", name := "A", description := "",
             status := TicketStatus.pending, createdAt := 1 },
           { id := "B", name := "B", description := "",
             status := TicketStatus.pending, createdAt := 2 }]
          ⟨["/a/A", "/a/B"]⟩).outcome = Except.ok res ∧
        res.cancelled = true ∧
        res.completed.length + res.failed.length = 1) ∧
    ApEvent.cancelled ∈
      (autopilotMode
          { automationPath := some "/a", baseRepositoryPath := some "/r" }
          (fun _ => {}) 3 false (some 1)
          [{ id := "A", name := "A", description := "",
             status := TicketStatus.pending, createdAt := 1 },
           { id := "B", name := "B", description := "",
             status := TicketStatus.pending, createdAt := 2 }]
          ⟨["/a/A", "/a/B"]⟩).events ∧
    (∀ t ∈ (([({ id := "A", name := "A", description := "",
                 status := TicketStatus.pending, createdAt := 1 } : Ticket),
               { id := "B", name := "B", description := "",
                 status := TicketStatus.pending, createdAt := 2 }].filter
          (fun t => t.status == TicketStatus.pending)).mergeSort
          (fun a b => decide (a.createdAt ≤ b.createdAt))).drop 1,
      t ∈ (autopilotMode
          { automationPath := some "/a", baseRepositoryPath := some "/r" }
          (fun _ => {}) 3 false (some 1)
          [{ id := "A", name := "A", description := "",
             status := TicketStatus.pending, createdAt := 1 },
           { id := "B", name := "B", description := "",
             status := TicketStatus.pending, createdAt := 2 }]
          ⟨["/a/A", "/a/B"]⟩).store ∧
        t.status = TicketStatus.pending) :=
  C5_cooperative_cancellation
    { automationPath := some "/a", baseRepositoryPath := some "/r" }
    (fun _ => {}) 3
    [{ id := "A", name := "A", description := "",
       status := TicketStatus.pending, createdAt := 1 },
     { id := "B", name := "B", description := "",
       status := TicketStatus.pending, createdAt := 2 }]
    ⟨["/a/A", "/a/B"]⟩ 1 (by decide) (by decide)
    (by rw [List.length_mergeSort]; decide)

theorem updateTicket_map_id (store : List Ticket) (i : String)
    (u : TicketUpdate) :
    (Storage.updateTicket store i u).1.map Ticket.id = store.map Ticket.id := by
  induction store with
  | nil => rfl
  | cons t ts ih =>
    by_cases h : t.id = i
    · simp [Storage.updateTicket, h, applyUpdate_id]
    · simp [Storage.updateTicket, h, ih]

theorem resolveTicketAutopilot_map_id
    (cfg : Config) (env : ResolveEnv) (now : Nat) (store : List Ticket)
    (tk : Ticket) (ew : Option String) (fs : FsState) :
    (resolveTicketAutopilot cfg env now store tk ew fs).store.map Ticket.id =
      store.map Ticket.id := by
  simp only [resolveTicketAutopilot]
  split
  · rw [updateTicket_map_id, updateTicket_map_id]
  · split
    · rw [updateTicket_map_id, updateTicket_map_id]
    · rw [updateTicket_map_id, updateTicket_map_id]

theorem find?_id_eq_of_nodup (store : List Ticket) (t : Ticket)
    (hnd : (store.map Ticket.id).Nodup) (ht : t ∈ store) :
    store.find? (fun s => s.id == t.id) = some t := by
  induction store with
  | nil => cases ht
  | cons s ss ih =>
    rw [List.map_cons, List.nodup_cons] at hnd
    rcases List.mem_cons.mp ht with h | h
    · subst h
      simp [List.find?]
    · have hne : (s.id == t.id) = false := by
        rw [beq_eq_false_iff_ne]
        intro he
        exact hnd.1 (he ▸ List.mem_map_of_mem Ticket.id h)
      rw [List.find?_cons_of_neg _ (by simp [hne])]
      exact ih hnd.2 h

theorem resolveTicketAutopilot_transitions_sub
    (cfg : Config) (env : ResolveEnv) (now : Nat) (store : List Ticket)
    (tk t0 : Ticket) (ew : Option String) (fs : FsState)
    (hfind : store.find? (fun s => s.id == tk.id) = some t0) :
    ∀ tr ∈ (resolveTicketAutopilot cfg env now store tk ew fs).transitions,
      tr = (t0.status, TicketStatus.working) ∨
      tr = (TicketStatus.working, TicketStatus.closed) ∨
      tr = (TicketStatus.working, TicketStatus.error) := by
  have h1 : statusTransitions store tk.id
      { status := some TicketStatus.working, startedAt := some now } =
      [(t0.status, TicketStatus.working)] := by
    simp [statusTransitions, hfind]
  have hfind1 : (Storage.updateTicket store tk.id
      { status := some TicketStatus.working, startedAt := some now }).1.find?
      (fun s => s.id == tk.id) =
      some (applyUpdate t0
        { status := some TicketStatus.working, startedAt := some now }) := by
    rw [updateTicket_find?_self, hfind]
    rfl
  have hwork : (applyUpdate t0
      { status := some TicketStatus.working, startedAt := some now }).status =
      TicketStatus.working := rfl
  simp only [resolveTicketAutopilot]
  split
  · intro tr htr
    rw [h1] at htr
    simp only [statusTransitions, hfind1, hwork] at htr
    rcases List.mem_append.mp htr with h | h
    · exact Or.inl (List.mem_singleton.mp h)
    · exact Or.inr (Or.inl (List.mem_singleton.mp h))
  · split
    · intro tr htr
      rw [h1] at htr
      simp only [statusTransitions, hfind1, hwork] at htr
      rcases List.mem_append.mp htr with h | h
      · exact Or.inl (List.mem_singleton.mp h)
      · exact Or.inr (Or.inl (List.mem_singleton.mp h))
    · intro tr htr
      rw [h1] at htr
      simp only [statusTransitions, hfind1, hwork] at htr
      rcases List.mem_append.mp htr with h | h
      · exact Or.inl (List.mem_singleton.mp h)
      · exact Or.inr (Or.inr (List.mem_singleton.mp h))

theorem autopilotLoop_transitions_sub (cfg : Config)
    (envOf : String → ResolveEnv) (now : Nat) (stopAt : Option Nat)
    (total : Nat) (wmap : List (String × String)) :
    ∀ (ts : List Ticket) (i : Nat) (store : List Ticket) (fs : FsState),
      (store.map Ticket.id).Nodup →
      (∀ t ∈ ts, t ∈ store ∧ t.status = TicketStatus.pending) →
      (ts.map Ticket.id).Nodup →
      ∀ tr ∈ (autopilotLoop cfg envOf now stopAt total wmap ts i store fs).transitions,
        tr = (TicketStatus.pending, TicketStatus.working) ∨
        tr = (TicketStatus.working, TicketStatus.closed) ∨
        tr = (TicketStatus.working, TicketStatus.error) := by
  intro ts
  induction ts with
  | nil => intro i store fs _ _ _ tr htr; cases htr
  | cons t ts ih =>
    intro i store fs hnd hmem hts tr htr
    rw [List.map_cons, List.nodup_cons] at hts
    obtain ⟨htmem, htpend⟩ := hmem t (List.mem_cons_self t ts)
    have hfind : store.find? (fun s => s.id == t.id) = some t :=
      find?_id_eq_of_nodup store t hnd htmem
    have hsub := resolveTicketAutopilot_transitions_sub cfg (envOf t.id) now
      store t t (List.lookup t.id wmap) fs hfind
    rw [htpend] at hsub
    have hnd' : ((resolveTicketAutopilot cfg (envOf t.id) now store t
        (List.lookup t.id wmap) fs).store.map Ticket.id).Nodup := by
      rw [resolveTicketAutopilot_map_id]
      exact hnd
    have hmem' : ∀ u ∈ ts,
        u ∈ (resolveTicketAutopilot cfg (envOf t.id) now store t
          (List.lookup t.id wmap) fs).store ∧
        u.status = TicketStatus.pending := by
      intro u hu
      obtain ⟨humem, hupend⟩ := hmem u (List.mem_cons_of_mem t hu)
      refine ⟨resolveTicketAutopilot_store_mem _ _ _ _ _ _ _ u humem ?_, hupend⟩
      intro he
      exact hts.1 (he ▸ List.mem_map_of_mem Ticket.id hu)
    have hrec := ih (i + 1)
      (resolveTicketAutopilot cfg (envOf t.id) now store t
        (List.lookup t.id wmap) fs).store
      (resolveTicketAutopilot cfg (envOf t.id) now store t
        (List.lookup t.id wmap) fs).fs hnd' hmem' hts.2
    rw [autopilotLoop] at htr
    rcases hstop : shouldStopAt stopAt i with _ | _
    · rw [hstop] at htr
      simp only [Bool.false_eq_true, if_false] at htr
      cases hsucc : (resolveTicketAutopilot cfg (envOf t.id) now store t
          (List.lookup t.id wmap) fs).success <;>
        rw [hsucc] at htr <;>
        simp only [Bool.false_eq_true, if_false, if_true] at htr <;>
        rcases List.mem_append.mp htr with h | h
      · exact hsub tr h
      · exact hrec tr h
      · exact hsub tr h
      · exact hrec tr h
    · rw [hstop] at htr
      simp only [if_true] at htr
      cases htr

theorem pending_to_working_mem (s : TicketStatus)
    (h : s ≠ TicketStatus.working) :
    (s, TicketStatus.working) ∈ amendedEdges := by
  cases s <;> first | exact absurd rfl h | decide

theorem status_to_branching_mem (s : TicketStatus)
    (h : s ≠ TicketStatus.working) :
    (s, TicketStatus.branching) ∈ amendedEdges := by
  cases s <;> first | exact absurd rfl h | decide

theorem start_transitions_sub (senv : StartEnv) (now : Nat)
    (store : List Ticket) (tid : String)
    (hnodup : (store.map Ticket.id).Nodup) :
    ∀ tr ∈ (Commands.start senv now store tid).2, tr ∈ amendedEdges := by
  intro tr htr
  rw [Commands.start] at htr
  split at htr
  · cases htr
  · rename_i tk hget
    have htk : tk ∈ store := List.mem_of_find?_eq_some hget
    have hfind : store.find? (fun s => s.id == tk.id) = some tk :=
      find?_id_eq_of_nodup store tk hnodup htk
    have h1 : statusTransitions store tk.id
        { status := some TicketStatus.working, startedAt := some now } =
        [(tk.status, TicketStatus.working)] := by
      simp [statusTransitions, hfind]
    have hb : statusTransitions store tk.id
        { status := some TicketStatus.branching } =
        [(tk.status, TicketStatus.branching)] := by
      simp [statusTransitions, hfind]
    have hfind1 : (Storage.updateTicket store tk.id
        { status := some TicketStatus.working, startedAt := some now }).1.find?
        (fun s => s.id == tk.id) =
        some (applyUpdate tk
          { status := some TicketStatus.working, startedAt := some now }) := by
      rw [updateTicket_find?_self, hfind]
      rfl
    have hfindb : (Storage.updateTicket store tk.id
        { status := some TicketStatus.branching }).1.find?
        (fun s => s.id == tk.id) =
        some (applyUpdate tk { status := some TicketStatus.branching }) := by
      rw [updateTicket_find?_self, hfind]
      rfl
    have hw2 : statusTransitions (Storage.updateTicket store tk.id
        { status := some TicketStatus.branching }).1 tk.id
        { status := some TicketStatus.working, startedAt := some now,
          branch := some ("copilot/" ++ tk.id) } =
        [(TicketStatus.branching, TicketStatus.working)] := by
      simp [statusTransitions, hfindb, applyUpdate]
    have hfindw : (Storage.updateTicket (Storage.updateTicket store tk.id
        { status := some TicketStatus.branching }).1 tk.id
        { status := some TicketStatus.working, startedAt := some now,
          branch := some ("copilot/" ++ tk.id) }).1.find?
        (fun s => s.id == tk.id) =
        some (applyUpdate (applyUpdate tk
          { status := some TicketStatus.branching })
          { status := some TicketStatus.working, startedAt := some now,
            branch := some ("copilot/" ++ tk.id) }) := by
      rw [updateTicket_find?_self, hfindb]
      rfl
    split at htr
    · cases htr
    · rename_i hw
      split at htr
      · -- not a git repository: direct working (+ possible analyze error)
        split at htr
        · rename_i e hcpeq haeeq
          rcases List.mem_append.mp htr with h | h
          · have h' : tr ∈ statusTransitions store tk.id
                { status := some TicketStatus.working,
                  startedAt := some now } := h
            rw [h1] at h'
            rw [List.mem_singleton.mp h']
            exact pending_to_working_mem tk.status hw
          · have h' : tr ∈ statusTransitions
                (Storage.updateTicket store tk.id
                  { status := some TicketStatus.working,
                    startedAt := some now }).1 tk.id
                { status := some TicketStatus.error, error := some e } := h
            have h2 : statusTransitions
                (Storage.updateTicket store tk.id
                  { status := some TicketStatus.working,
                    startedAt := some now }).1 tk.id
                { status := some TicketStatus.error, error := some e } =
                [(TicketStatus.working, TicketStatus.error)] := by
              simp [statusTransitions, hfind1, applyUpdate]
            rw [h2] at h'
            rw [List.mem_singleton.mp h']
            decide
        · have h' : tr ∈ statusTransitions store tk.id
              { status := some TicketStatus.working,
                startedAt := some now } := htr
          rw [h1] at h'
          rw [List.mem_singleton.mp h']
          exact pending_to_working_mem tk.status hw
      · -- git repository: branching first
        split at htr
        · rename_i e heq
          rcases List.mem_append.mp htr with h | h
          · have h' : tr ∈ statusTransitions store tk.id
                { status := some TicketStatus.branching } := h
            rw [hb] at h'
            rw [List.mem_singleton.mp h']
            exact status_to_branching_mem tk.status hw
          · have h' : tr ∈ statusTransitions
                (Storage.updateTicket store tk.id
                  { status := some TicketStatus.branching }).1 tk.id
                { status := some TicketStatus.error, error := some e } := h
            have h2 : statusTransitions
                (Storage.updateTicket store tk.id
                  { status := some TicketStatus.branching }).1 tk.id
                { status := some TicketStatus.error, error := some e } =
                [(TicketStatus.branching, TicketStatus.error)] := by
              simp [statusTransitions, hfindb, applyUpdate]
            rw [h2] at h'
            rw [List.mem_singleton.mp h']
            decide
        · split at htr
          · rename_i e hcpeq haeeq
            rcases List.mem_append.mp htr with h | h
            · rcases List.mem_append.mp h with h2 | h2
              · have h' : tr ∈ statusTransitions store tk.id
                    { status := some TicketStatus.branching } := h2
                rw [hb] at h'
                rw [List.mem_singleton.mp h']
                exact status_to_branching_mem tk.status hw
              · have h' : tr ∈ statusTransitions
                    (Storage.updateTicket store tk.id
                      { status := some TicketStatus.branching }).1 tk.id
                    { status := some TicketStatus.working,
                      startedAt := some now,
                      branch := some ("copilot/" ++ tk.id) } := h2
                rw [hw2] at h'
                rw [List.mem_singleton.mp h']
                decide
            · have h' : tr ∈ statusTransitions
                  (Storage.updateTicket (Storage.updateTicket store tk.id
                    { status := some TicketStatus.branching }).1 tk.id
                    { status := some TicketStatus.working,
                      startedAt := some now,
                      branch := some ("copilot/" ++ tk.id) }).1 tk.id
                  { status := some TicketStatus.error, error := some e } := h
              have h2 : statusTransitions
                  (Storage.updateTicket (Storage.updateTicket store tk.id
                    { status := some TicketStatus.branching }).1 tk.id
                    { status := some TicketStatus.working,
                      startedAt := some now,
                      branch := some ("copilot/" ++ tk.id) }).1 tk.id
                  { status := some TicketStatus.error, error := some e } =
                  [(TicketStatus.working, TicketStatus.error)] := by
                simp [statusTransitions, hfindw, applyUpdate]
              rw [h2] at h'
              rw [List.mem_singleton.mp h']
              decide
          · rcases List.mem_append.mp htr with h | h
            · have h' : tr ∈ statusTransitions store tk.id
                  { status := some TicketStatus.branching } := h
              rw [hb] at h'
              rw [List.mem_singleton.mp h']
              exact status_to_branching_mem tk.status hw
            · have h' : tr ∈ statusTransitions
                  (Storage.updateTicket store tk.id
                    { status := some TicketStatus.branching }).1 tk.id
                  { status := some TicketStatus.working,
                    startedAt := some now,
                    branch := some ("copilot/" ++ tk.id) } := h
              rw [hw2] at h'
              rw [List.mem_singleton.mp h']
              decide

theorem stop_transitions_sub (senv : StopEnv) (now : Nat)
    (store : List Ticket) (tid : String)
    (hnodup : (store.map Ticket.id).Nodup) :
    ∀ tr ∈ (Commands.stop senv now store tid).2, tr ∈ amendedEdges := by
  intro tr htr
  rw [Commands.stop] at htr
  split at htr
  · cases htr
  · rename_i tk hget
    have htk : tk ∈ store := List.mem_of_find?_eq_some hget
    have hfind : store.find? (fun s => s.id == tk.id) = some tk :=
      find?_id_eq_of_nodup store tk hnodup htk
    split at htr
    · cases htr
    · rename_i hw
      rw [Decidable.not_not] at hw
      split at htr
      · cases htr
      · simp only [statusTransitions, hfind] at htr
        rw [List.mem_singleton.mp htr, hw]
        decide

theorem selectedPending_mem (store : List Ticket) :
    ∀ t ∈ ((store.filter (fun t => t.status == TicketStatus.pending)).mergeSort
        (fun a b => decide (a.createdAt ≤ b.createdAt))),
      t ∈ store ∧ t.status = TicketStatus.pending := by
  intro t ht
  obtain ⟨hmem, hpend⟩ := List.mem_filter.mp (List.mem_mergeSort.mp ht)
  exact ⟨hmem, by simpa using hpend⟩

theorem selectedPending_nodup (store : List Ticket)
    (hnodup : (store.map Ticket.id).Nodup) :
    ((((store.filter (fun t => t.status == TicketStatus.pending)).mergeSort
        (fun a b => decide (a.createdAt ≤ b.createdAt))).map Ticket.id)).Nodup := by
  have hperm := (List.mergeSort_perm
    (store.filter (fun t => t.status == TicketStatus.pending))
    (fun a b => decide (a.createdAt ≤ b.createdAt))).map Ticket.id
  rw [hperm.nodup_iff]
  exact hnodup.sublist ((List.filter_sublist _).map Ticket.id)

/-- C2 counterexample: `Commands.start` on a `closed` ticket (outside a
git repository) produces the status transition closed→working, which is
outside the claimed transition set — the only guard in `start` is
against `working` tickets, so terminal tickets can be restarted. -/
theorem C2_counterexample :
    (Commands.start { isGitRepo := false, copilotPresent := false } 5
      [{ id := "T", name := "T", description := "d",
         status := TicketStatus.closed, createdAt := 0 }] "T").2 =
      [(TicketStatus.closed, TicketStatus.working)] ∧
    (TicketStatus.closed, TicketStatus.working) ∉ claimEdges := by
  decide

/-- C2 amended: with globally unique ticket ids, every status
transition the core produces (`start`, `stop`, autopilot resolution)
lies in the claimed edge set extended with the restart edges
{branching,stopped,closed,error}→branching and {closed,error}→working,
which `start` can produce because its only guard is against `working`
tickets. -/
theorem C2_transitions_in_amended_set :
    (∀ (senv : StartEnv) (now : Nat) (store : List Ticket) (tid : String),
      (store.map Ticket.id).Nodup →
      ∀ tr ∈ (Commands.start senv now store tid).2, tr ∈ amendedEdges) ∧
    (∀ (senv : StopEnv) (now : Nat) (store : List Ticket) (tid : String),
      (store.map Ticket.id).Nodup →
      ∀ tr ∈ (Commands.stop senv now store tid).2, tr ∈ amendedEdges) ∧
    (∀ (cfg : Config) (envOf : String → ResolveEnv) (now : Nat)
      (stopAt : Option Nat) (store : List Ticket) (fs : FsState),
      (store.map Ticket.id).Nodup →
      ∀ tr ∈ (autopilotMode cfg envOf now false stopAt store fs).transitions,
        tr ∈ amendedEdges) := by
  refine ⟨start_transitions_sub, stop_transitions_sub, ?_⟩
  intro cfg envOf now stopAt store fs hnd tr htr
  simp only [autopilotMode, Bool.false_eq_true, if_false] at htr
  by_cases hS : ((store.filter (fun t => t.status == TicketStatus.pending)).mergeSort
      (fun a b => decide (a.createdAt ≤ b.createdAt))).isEmpty
  · rw [if_pos hS] at htr
    cases htr
  · rw [if_neg hS] at htr
    have hsub := autopilotLoop_transitions_sub cfg envOf now stopAt
      ((store.filter (fun t => t.status == TicketStatus.pending)).mergeSort
        (fun a b => decide (a.createdAt ≤ b.createdAt))).length
      (provisionWorktrees cfg envOf
        ((store.filter (fun t => t.status == TicketStatus.pending)).mergeSort
          (fun a b => decide (a.createdAt ≤ b.createdAt))) fs).1
      ((store.filter (fun t => t.status == TicketStatus.pending)).mergeSort
        (fun a b => decide (a.createdAt ≤ b.createdAt)))
      0 store
      (provisionWorktrees cfg envOf
        ((store.filter (fun t => t.status == TicketStatus.pending)).mergeSort
          (fun a b => decide (a.createdAt ≤ b.createdAt))) fs).2.1
      hnd (selectedPending_mem store) (selectedPending_nodup store hnd)
      tr htr
    rcases hsub with h | h | h <;> rw [h] <;> decide

/-- Witness for C2 amended: the closed→working restart transition
produced by `start` on a closed ticket is in the amended edge set. -/
theorem C2_witness :
    (TicketStatus.closed, TicketStatus.working) ∈ amendedEdges :=
  C2_transitions_in_amended_set.1
    { isGitRepo := false, copilotPresent := false } 5
    [{ id := "T", name := "T", description := "d",
       status := TicketStatus.closed, createdAt := 0 }] "T" (by decide)
    (TicketStatus.closed, TicketStatus.working) (by decide)

end Autopilot
